import Mathlib

/-!
Verification of the batch SEO audit route (`app/api/audit/route.ts`).

The TypeScript source is shallowly embedded below: pure functions become Lean
functions, JS numbers are modelled as exact rationals (`ℚ`), JS exceptions as
`Except`/`Option`, and the host `URL`, `Headers` and `RegExp` facilities are
modelled by executable Lean functions documented at their definitions.
-/

namespace Audit

/-- Status of one evaluated check, per the `Issue` type in the source
(`"pass" | "warn" | "fail"`). -/
inductive Status where
  | pass
  | warn
  | fail
deriving DecidableEq, Repr

/-- A measured detail value stored in an issue's `details` record. -/
inductive DVal where
  | n (q : ℚ)
  | s (st : String)
  | b (bo : Bool)
  | l (xs : List String)
deriving DecidableEq, Repr

/-- Embeds the source's `Issue` object
(`{ id; status; details?; fix?; page?; category? }`). -/
structure Issue where
  id : String
  status : Status
  details : List (String × DVal) := []
  fix : String := ""
  page : String := ""
  category : String := ""
deriving DecidableEq, Repr

/-- `statusToScore` from the source: `{ pass: 1, warn: 0.5, fail: 0 }`. -/
def statusToScore : Status → ℚ
  | .pass => 1
  | .warn => 1/2
  | .fail => 0

/-- JS `Math.round` on a (non-negative in all uses here) number: round half
toward positive infinity, i.e. `⌊q + 1/2⌋`. -/
def jsRound (q : ℚ) : ℤ := ⌊q + 1/2⌋

/-- The per-check weight table of `scoreCategories`, keyed by category. -/
def weightsFor : String → List (String × ℚ)
  | "technical_seo" =>
      [("viewport_meta", 2), ("meta_robots", 4), ("canonical_tag", 4),
       ("https_mixed_content", 3)]
  | "onpage_seo" =>
      [("title_tag", 6), ("meta_description", 4), ("h1_tag", 4),
       ("heading_hierarchy", 2), ("image_alt", 3), ("image_lazy", 2),
       ("image_filename", 1), ("internal_links", 5), ("word_count", 3),
       ("publish_date", 2)]
  | "entity_trust" =>
      [("open_graph", 2), ("entity_schema_org", 4), ("entity_nap", 3),
       ("entity_social_profiles", 1)]
  | "hygiene" =>
      [("hygiene_favicon", 1), ("hygiene_manifest", 1), ("hygiene_charset", 2),
       ("hygiene_html_lang", 2), ("hygiene_copyright_year", 1)]
  | _ => []

/-- `overallWeights` from the source:
`{ technical_seo: 35, onpage_seo: 35, entity_trust: 20, hygiene: 10 }`. -/
def overallWeight : String → ℚ
  | "technical_seo" => 35
  | "onpage_seo" => 35
  | "entity_trust" => 20
  | "hygiene" => 10
  | _ => 0

/-- `Object.keys(overallWeights)`, in insertion order. -/
def categoriesList : List String :=
  ["technical_seo", "onpage_seo", "entity_trust", "hygiene"]

/-- `byId.get(id)?.status || 'fail'`: the issue lookup map is a JS `Map` built
from the issue list, so for duplicate ids the last occurrence wins; a missing
id yields `'fail'`. -/
def lastStatus (issues : List Issue) (id : String) : Status :=
  match issues.reverse.find? (fun i => i.id = id) with
  | some i => i.status
  | none => .fail

/-- `entries.reduce((s,[id,w])=> s + (statusToScore[...] * w), 0)` for one
category. -/
def catRaw (issues : List Issue) (c : String) : ℚ :=
  (weightsFor c).foldl (fun s iw => s + statusToScore (lastStatus issues iw.1) * iw.2) 0

/-- `entries.reduce((s,[,w])=>s+w,0)||1` for one category. -/
def catSumW (c : String) : ℚ :=
  let s := (weightsFor c).foldl (fun a iw => a + iw.2) 0
  if s = 0 then 1 else s

/-- `pct = (raw / sumW) * 100`. -/
def catPct (issues : List Issue) (c : String) : ℚ :=
  catRaw issues c / catSumW c * 100

/-- `weighted = pct * (overallWeights[cat]/100)` (before rounding). -/
def catWeighted (issues : List Issue) (c : String) : ℚ :=
  catPct issues c * (overallWeight c / 100)

/-- The accumulated `overall` value at the end of the category loop — the sum
of the unrounded weighted contributions. -/
def overallRaw (issues : List Issue) : ℚ :=
  categoriesList.foldl (fun s c => s + catWeighted issues c) 0

/-- One entry of the `out` array: `{ id, score: Math.round(pct),
weighted: Math.round(weighted) }`. -/
structure CatScore where
  id : String
  score : ℤ
  weighted : ℤ
deriving DecidableEq, Repr

/-- The grade conditional of `scoreCategories`, applied to the accumulated
(unrounded) `overall` value. -/
def jsGrade (q : ℚ) : String :=
  if q ≥ 90 then "A" else if q ≥ 80 then "B" else if q ≥ 70 then "C"
  else if q ≥ 60 then "D" else "F"

/-- The return value of `scoreCategories`. -/
structure ScoreResult where
  overall : ℤ
  grade : String
  categories : List CatScore
deriving DecidableEq, Repr

/-- `scoreCategories` from the source: per category, score and weighted
contribution; `overall` is rounded only in the returned object, while `grade`
is computed from the unrounded accumulator. -/
def scoreCategories (issues : List Issue) : ScoreResult :=
  { overall := jsRound (overallRaw issues)
    grade := jsGrade (overallRaw issues)
    categories := categoriesList.map
      (fun c => { id := c
                  score := jsRound (catPct issues c)
                  weighted := jsRound (catWeighted issues c) }) }

/-! ### Claim-side (spec-worded) scoring definitions

These restate the spec's description of the scoring formulas, to be compared
with the source-derived `scoreCategories` above. -/

/-- Spec wording: statusValue is 1.0 for pass, 0.5 for warn, 0.0 for fail,
and 0.0 (fail) for a mapped check id absent from the issue list. -/
def specStatusValue (issues : List Issue) (id : String) : ℚ :=
  statusToScore (lastStatus issues id)

/-- Spec wording: the category percentage
`100 * (sum of weight * statusValue) / (sum of weights)`, unrounded. -/
def specCategoryPctQ (issues : List Issue) (c : String) : ℚ :=
  100 * ((weightsFor c).map (fun p => p.2 * specStatusValue issues p.1)).sum
    / ((weightsFor c).map (fun p => p.2)).sum

/-- Spec wording: the category score, the percentage rounded to the nearest
integer. -/
def specCategoryScore (issues : List Issue) (c : String) : ℤ :=
  jsRound (specCategoryPctQ issues c)

/-- Spec wording: the overall score is the rounded sum of each category
percentage multiplied by its fixed share (35%, 35%, 20%, 10%). -/
def specOverallQ (issues : List Issue) : ℚ :=
  (categoriesList.map (fun c => specCategoryPctQ issues c * overallWeight c / 100)).sum

/-- Spec wording: rounded overall score. -/
def specOverallScore (issues : List Issue) : ℤ :=
  jsRound (specOverallQ issues)

/-- Spec wording: the fixed grade thresholds ≥90 A, ≥80 B, ≥70 C, ≥60 D,
else F. -/
def specGrade (q : ℚ) : String :=
  if q ≥ 90 then "A" else if q ≥ 80 then "B" else if q ≥ 70 then "C"
  else if q ≥ 60 then "D" else "F"

/-- C1: for every issue list, each category's score is
round(100·Σ(weight·statusValue)/Σweight) and the overall score is the rounded
sum of the category percentages multiplied by the fixed shares 35/35/20/10%. -/
theorem C1_scoring_formula (issues : List Issue) :
    (scoreCategories issues).categories.map CatScore.score
      = categoriesList.map (specCategoryScore issues)
    ∧ (scoreCategories issues).overall = specOverallScore issues := by
  constructor
  · simp only [scoreCategories, List.map_map, categoriesList, List.map]
    refine congrArg₂ _ ?_ (congrArg₂ _ ?_ (congrArg₂ _ ?_ (congrArg₂ _ ?_ rfl))) <;>
    · show jsRound _ = jsRound _
      congr 1
      simp [catPct, catRaw, catSumW, weightsFor, specCategoryPctQ, specStatusValue]
      norm_num
      ring
  · show jsRound _ = jsRound _
    congr 1
    simp [overallRaw, categoriesList, specOverallQ, catWeighted, catPct, catRaw,
      catSumW, weightsFor, specCategoryPctQ, specStatusValue, overallWeight]
    norm_num
    ring

/-- Helper to build an issue with just an id and a status (the other fields do
not influence scoring). -/
def mkIssue (id : String) (st : Status) : Issue :=
  { id := id, status := st }

/-- An issue list whose exact weighted sum is 89 + 331/448 ∈ [89.5, 90):
all checks pass except `entity_schema_org` (fail), `entity_social_profiles`,
`image_filename` and `hygiene_favicon` (warn). -/
def gradeCexIssues : List Issue :=
  [mkIssue "title_tag" .pass, mkIssue "meta_description" .pass,
   mkIssue "viewport_meta" .pass, mkIssue "h1_tag" .pass,
   mkIssue "heading_hierarchy" .pass, mkIssue "canonical_tag" .pass,
   mkIssue "meta_robots" .pass, mkIssue "open_graph" .pass,
   mkIssue "https_mixed_content" .pass, mkIssue "image_alt" .pass,
   mkIssue "image_lazy" .pass, mkIssue "image_filename" .warn,
   mkIssue "internal_links" .pass, mkIssue "publish_date" .pass,
   mkIssue "word_count" .pass, mkIssue "entity_schema_org" .fail,
   mkIssue "entity_nap" .pass, mkIssue "entity_social_profiles" .warn,
   mkIssue "hygiene_favicon" .warn, mkIssue "hygiene_manifest" .pass,
   mkIssue "hygiene_charset" .pass, mkIssue "hygiene_html_lang" .pass,
   mkIssue "hygiene_copyright_year" .pass]

/-- C2 counterexample: the engine returns an overall of exactly 90 together
with grade "B", because the grade is computed from the unrounded weighted sum
(here 89 + 827/1120 < 90) while the returned overall is rounded up to 90. -/
theorem C2_grade_cex :
    (scoreCategories gradeCexIssues).overall = 90
    ∧ (scoreCategories gradeCexIssues).grade = "B" := by
  have h : overallRaw gradeCexIssues = 89 + 331/448 := by
    simp [overallRaw, categoriesList, catWeighted, catPct, catRaw, catSumW,
      weightsFor, lastStatus, gradeCexIssues, mkIssue, statusToScore,
      overallWeight, List.find?]
    norm_num
  constructor
  · show jsRound (overallRaw gradeCexIssues) = 90
    rw [h, jsRound]
    norm_num
  · show jsGrade (overallRaw gradeCexIssues) = "B"
    rw [h, jsGrade]
    norm_num

/-- C2 amended: the letter grade is determined by the pre-rounding overall
weighted sum (equal to the spec's exact category-percentage weighted sum) via
the fixed thresholds, not by the returned rounded overall. -/
theorem C2_grade_from_unrounded (issues : List Issue) :
    (scoreCategories issues).grade = specGrade (specOverallQ issues) := by
  show jsGrade _ = specGrade _
  have h : overallRaw issues = specOverallQ issues := by
    simp [overallRaw, categoriesList, specOverallQ, catWeighted, catPct, catRaw,
      catSumW, weightsFor, specCategoryPctQ, specStatusValue, overallWeight]
    norm_num
    ring
  rw [h]
  rfl

/-- C4: if two issue lists agree (under the engine's id lookup) on every check
id other than `cid`, then every category whose weight map does not contain
`cid` gets an identical category entry (same score and weighted contribution)
in both runs. -/
theorem C4_single_check_frame (l1 l2 : List Issue) (cid : String)
    (h : ∀ id, id ≠ cid → lastStatus l1 id = lastStatus l2 id) :
    ∀ c ∈ categoriesList, cid ∉ (weightsFor c).map Prod.fst →
      ({ id := c, score := jsRound (catPct l1 c),
         weighted := jsRound (catWeighted l1 c) } : CatScore)
      = { id := c, score := jsRound (catPct l2 c),
          weighted := jsRound (catWeighted l2 c) } := by
  intro c hc hni
  have hraw : catRaw l1 c = catRaw l2 c := by
    have hstep : ∀ id, id ∈ (weightsFor c).map Prod.fst →
        lastStatus l1 id = lastStatus l2 id := by
      intro id hid
      exact h id (fun he => hni (he ▸ hid))
    fin_cases hc <;>
    · simp only [weightsFor, List.map, List.mem_cons, List.not_mem_nil] at hstep ⊢
      simp only [catRaw, weightsFor, List.foldl]
      repeat rw [hstep _ (by tauto)]
  simp [catPct, catWeighted, hraw]

/-- Witness for C4: two concrete lists differing only in the status of
`title_tag` (an `onpage_seo` check) leave the `technical_seo` entry
unchanged. -/
theorem C4_single_check_frame_witness :
    ({ id := "technical_seo",
       score := jsRound (catPct [mkIssue "title_tag" .pass, mkIssue "viewport_meta" .pass] "technical_seo"),
       weighted := jsRound (catWeighted [mkIssue "title_tag" .pass, mkIssue "viewport_meta" .pass] "technical_seo") } : CatScore)
    = { id := "technical_seo",
        score := jsRound (catPct [mkIssue "title_tag" .warn, mkIssue "viewport_meta" .pass] "technical_seo"),
        weighted := jsRound (catWeighted [mkIssue "title_tag" .warn, mkIssue "viewport_meta" .pass] "technical_seo") } := by
  refine C4_single_check_frame
    [mkIssue "title_tag" .pass, mkIssue "viewport_meta" .pass]
    [mkIssue "title_tag" .warn, mkIssue "viewport_meta" .pass]
    "title_tag" ?_ "technical_seo" (by decide) (by decide)
  intro id hne
  have hne2 : ("title_tag" : String) ≠ id := Ne.symm hne
  simp [lastStatus, mkIssue, List.find?, hne2]

/-! ### URL model

`normaliseOrigin` and `evaluateHome` use the host platform's WHATWG `URL`
class. It is modelled here by an executable parser restricted to the special
schemes `http`/`https` (other inputs are treated as parse failures, which is
also how `normaliseOrigin` ends up behaving on them: a non-special origin is
the opaque string `"null"`, which the second `new URL` call rejects).
IDNA, percent-decoding and path normalisation are out of scope: hosts are
ASCII-lowercased and checked against the WHATWG forbidden host code points. -/

/-- ASCII uppercase test by code point. -/
def isUpperAZ (c : Char) : Bool := 65 ≤ c.toNat && c.toNat ≤ 90

/-- ASCII lowercasing, as performed on URL schemes and hosts. -/
def toLowerChar (c : Char) : Char :=
  if 65 ≤ c.toNat ∧ c.toNat ≤ 90 then Char.ofNat (c.toNat + 32) else c

/-- Lowercase a character list. -/
def lowerStr (l : List Char) : List Char := l.map toLowerChar

/-- ASCII letter test. -/
def isAlphaChar (c : Char) : Bool :=
  (97 ≤ c.toNat && c.toNat ≤ 122) || (65 ≤ c.toNat && c.toNat ≤ 90)

/-- ASCII digit test. -/
def isDigitChar (c : Char) : Bool := 48 ≤ c.toNat && c.toNat ≤ 57

/-- URL scheme characters after the first: ALPHA / DIGIT / + / - / . -/
def schemeChar (c : Char) : Bool :=
  isAlphaChar c || isDigitChar c || c = '+' || c = '-' || c = '.'

/-- WHATWG forbidden host code points (NUL, TAB, LF, CR, SP, #, /, :, <, >,
?, @, [, \, ], ^, |). -/
def hostForbidden (c : Char) : Bool :=
  c.toNat = 0 || c = '\t' || c = '\n' || c = '\r' || c = ' ' || c = '#' ||
  c = '/' || c = ':' || c = '<' || c = '>' || c = '?' || c = '@' ||
  c = '[' || c = '\\' || c = ']' || c = '^' || c = '|'

/-- Characters terminating the authority section. -/
def authEndChar (c : Char) : Bool :=
  c = '/' || c = '\\' || c = '?' || c = '#'

/-- Split at the first character satisfying `p`: returns the prefix before it
and, when found, the remainder after it. -/
def splitFirst (p : Char → Bool) : List Char → List Char × Option (List Char)
  | [] => ([], none)
  | c :: t =>
      match p c with
      | true => ([], some t)
      | false => ((c :: (splitFirst p t).1 : List Char), (splitFirst p t).2)

/-- The suffix after the last `@` (userinfo separator); the whole list when no
`@` occurs. -/
def afterLastAt (l : List Char) : List Char :=
  (l.reverse.takeWhile (fun c => c ≠ '@')).reverse

/-- Decimal digit accumulation, `a*10 + digit`. -/
def parseDigits (l : List Char) : Nat :=
  l.foldl (fun a c => a * 10 + (c.toNat - 48)) 0

/-- Default port of a special scheme. -/
def defaultPort (scheme : List Char) : Nat :=
  if scheme = "http".data then 80 else 443

/-- Parse the port section (text after the first `:` of the authority):
empty means no port; digits are required, the value is capped at 65535 and the
scheme's default port normalises to `none`. -/
def parsePort (scheme : List Char) (l : List Char) : Option (Option Nat) :=
  if l = [] then some none
  else if l.all isDigitChar then
    if parseDigits l ≤ 65535 then
      some (if parseDigits l = defaultPort scheme then none else some (parseDigits l))
    else none
  else none

/-- Validate a lowercased host and parse the optional port part. -/
def hostPortAux (scheme host : List Char) : Option (List Char) →
    Option (List Char × Option Nat)
  | none =>
      if host = [] then none
      else if host.any hostForbidden then none
      else some (host, none)
  | some ps =>
      if host = [] then none
      else if host.any hostForbidden then none
      else
        match parsePort scheme ps with
        | none => none
        | some p => some (host, p)

/-- Parse an authority section into lowercased host and port: drop userinfo,
split at the first `:`, lowercase and validate the host. -/
def parseHostPort (scheme : List Char) (auth : List Char) :
    Option (List Char × Option Nat) :=
  hostPortAux scheme (lowerStr (splitFirst (fun c => c = ':') (afterLastAt auth)).1)
    (splitFirst (fun c => c = ':') (afterLastAt auth)).2

/-- A parsed URL record. -/
structure URLRec where
  scheme : List Char
  host : List Char
  port : Option Nat
  path : List Char
  query : Option (List Char)
  fragment : Option (List Char)
deriving DecidableEq, Repr

/-- Build the URL record from host/port and the post-authority tail, split at
the first `#` (fragment) and then the first `?` (query). -/
def parseAuthTail (scheme : List Char) (auth after : List Char) : Option URLRec :=
  match parseHostPort scheme auth with
  | none => none
  | some (host, port) =>
      some { scheme := scheme, host := host, port := port,
             path := (splitFirst (fun c => c = '?')
               (splitFirst (fun c => c = '#') after).1).1,
             query := (splitFirst (fun c => c = '?')
               (splitFirst (fun c => c = '#') after).1).2,
             fragment := (splitFirst (fun c => c = '#') after).2 }

/-- After the scheme and `:`: only http/https are accepted; any run of
slashes/backslashes is skipped, then the authority extends to `/ \\ ? #`. -/
def parseAfterScheme (scheme rest : List Char) : Option URLRec :=
  if scheme = "http".data ∨ scheme = "https".data then
    parseAuthTail scheme
      ((rest.dropWhile (fun c => c = '/' || c = '\\')).takeWhile
        (fun c => !authEndChar c))
      ((rest.dropWhile (fun c => c = '/' || c = '\\')).dropWhile
        (fun c => !authEndChar c))
  else none

/-- The WHATWG-style parser (http/https only): scheme, then any number of
slashes, then authority up to `/ \\ ? #`, then path/query/fragment split at
the first `?` and `#`. -/
def parseURLc (s : List Char) : Option URLRec :=
  match s with
  | [] => none
  | c0 :: _ =>
    if isAlphaChar c0 then
      match s.dropWhile schemeChar with
      | ':' :: rest => parseAfterScheme (lowerStr (s.takeWhile schemeChar)) rest
      | _ => none
    else none

/-- `new URL(s)` on a string. -/
def parseURL (s : String) : Option URLRec := parseURLc s.data

/-- Decimal digit characters of a natural number (most significant first),
with explicit fuel for structural recursion. -/
def natCharsAux : Nat → Nat → List Char
  | 0, _ => []
  | fuel + 1, n =>
      if n < 10 then [Char.ofNat (48 + n)]
      else natCharsAux fuel (n / 10) ++ [Char.ofNat (48 + n % 10)]

/-- Decimal representation of a natural number. -/
def natChars (n : Nat) : List Char := natCharsAux (n + 1) n

/-- The `:port` suffix of a serialized origin (empty when the port is the
scheme default, i.e. `none`). -/
def portSuffix : Option Nat → List Char
  | none => []
  | some n => ':' :: natChars n

/-- `u.origin` of a special-scheme URL: `scheme://host` plus `:port` when the
port is not the scheme default. -/
def originChars (u : URLRec) : List Char :=
  u.scheme ++ (':' :: '/' :: '/' :: u.host) ++ portSuffix u.port

/-- `url.toString()`: full serialization; an empty path serializes as `/` for
special schemes. -/
def serializeURL (u : URLRec) : String :=
  String.mk (u.scheme ++ (':' :: '/' :: '/' :: u.host) ++ portSuffix u.port
    ++ (if u.path = [] then ['/'] else u.path)
    ++ (match u.query with | none => [] | some q => '?' :: q)
    ++ (match u.fragment with | none => [] | some f => '#' :: f))

/-- JS `String.prototype.startsWith` (case-sensitive prefix test). -/
def strStarts (s pre : String) : Bool := pre.data.isPrefixOf s.data

/-- `normaliseOrigin` from the source:
`const u = new URL(input.startsWith("http") ? input : "https://" + input);
return new URL(u.origin).toString();` — a thrown `TypeError` is modelled as
`Except.error "Invalid URL"`. -/
def normaliseOrigin (input : String) : Except String String :=
  match parseURL (if strStarts input "http" then input else "https://" ++ input) with
  | none => .error "Invalid URL"
  | some u =>
    match parseURL (String.mk (originChars u)) with
    | none => .error "Invalid URL"
    | some u2 => .ok (serializeURL u2)

/-! ### Claim-side (spec-worded) origin normalizer -/

/-- Spec wording: whether the string carries a URL scheme
(`ALPHA *(ALPHA / DIGIT / + / - / .) ":"` prefix). -/
def specHasScheme (s : String) : Bool :=
  match s.data with
  | [] => false
  | c :: _ => isAlphaChar c && ((s.data.dropWhile schemeChar).head? = some ':')

/-- Spec wording of the normalizer: prefix `https://` exactly when the string
lacks a scheme, parse, fail with `InvalidOriginError` on unparsable input, and
reduce to exactly the origin — scheme + host + port, no path and no query. -/
def specNormaliseOrigin (s : String) : Except String String :=
  match parseURL (if specHasScheme s then s else "https://" ++ s) with
  | none => .error "InvalidOriginError"
  | some u => .ok (String.mk (originChars u))

/-! ### Lemmas about the URL model -/

theorem toNat_ofNat_lt {n : Nat} (h : n < 55296) : (Char.ofNat n).toNat = n := by
  have hv : n.isValidChar := Or.inl h
  simp [Char.ofNat, hv]
  rfl

theorem toLowerChar_idem (c : Char) : toLowerChar (toLowerChar c) = toLowerChar c := by
  unfold toLowerChar
  by_cases h : 65 ≤ c.toNat ∧ c.toNat ≤ 90
  · rw [if_pos h]
    have ht : (Char.ofNat (c.toNat + 32)).toNat = c.toNat + 32 :=
      toNat_ofNat_lt (by omega)
    rw [if_neg (by omega)]
  · rw [if_neg h, if_neg h]

theorem lowerStr_idem (l : List Char) : lowerStr (lowerStr l) = lowerStr l := by
  simp [lowerStr, List.map_map, Function.comp, toLowerChar_idem]

theorem takeWhile_all {p : Char → Bool} :
    ∀ {l : List Char}, (∀ c ∈ l, p c = true) → l.takeWhile p = l := by
  intro l
  induction l with
  | nil => intro; rfl
  | cons c t ih =>
      intro h
      have hc : p c = true := h c (List.mem_cons_self c t)
      simp only [List.takeWhile, hc]
      exact congrArg (List.cons c) (ih fun x hx => h x (List.mem_cons_of_mem c hx))

theorem dropWhile_all {p : Char → Bool} :
    ∀ {l : List Char}, (∀ c ∈ l, p c = true) → l.dropWhile p = [] := by
  intro l
  induction l with
  | nil => intro; rfl
  | cons c t ih =>
      intro h
      have hc : p c = true := h c (List.mem_cons_self c t)
      simp only [List.dropWhile, hc]
      exact ih fun x hx => h x (List.mem_cons_of_mem c hx)

theorem splitFirst_nosat {p : Char → Bool} :
    ∀ {l : List Char}, (∀ c ∈ l, p c = false) → splitFirst p l = (l, none) := by
  intro l
  induction l with
  | nil => intro; rfl
  | cons c t ih =>
      intro h
      have hc : p c = false := h c (List.mem_cons_self c t)
      have ht := ih fun x hx => h x (List.mem_cons_of_mem c hx)
      simp only [splitFirst, hc, ht]

theorem splitFirst_append_sat {p : Char → Bool} {c : Char} {l2 : List Char}
    (hc : p c = true) :
    ∀ {l1 : List Char}, (∀ x ∈ l1, p x = false) →
      splitFirst p (l1 ++ c :: l2) = (l1, some l2) := by
  intro l1
  induction l1 with
  | nil => intro; simp only [List.nil_append, splitFirst, hc]
  | cons a t ih =>
      intro h
      have ha : p a = false := h a (List.mem_cons_self a t)
      have ht := ih fun x hx => h x (List.mem_cons_of_mem a hx)
      simp only [List.cons_append, splitFirst, ha, List.append_eq, ht]

theorem afterLastAt_of_no_at {l : List Char} (h : ∀ c ∈ l, c ≠ '@') :
    afterLastAt l = l := by
  unfold afterLastAt
  rw [takeWhile_all, List.reverse_reverse]
  intro c hc
  simp [h c (by simpa using hc)]

theorem natCharsAux_all_digits :
    ∀ fuel n, n < fuel → (natCharsAux fuel n).all isDigitChar = true := by
  intro fuel
  induction fuel with
  | zero => omega
  | succ f ih =>
      intro n hn
      unfold natCharsAux
      have hd : ∀ d, d < 10 → isDigitChar (Char.ofNat (48 + d)) = true := by
        intro d hd10
        have := toNat_ofNat_lt (n := 48 + d) (by omega)
        simp [isDigitChar, this]
        omega
      by_cases h10 : n < 10
      · simp [h10, hd n h10]
      · have : n / 10 < f := by omega
        simp [h10, List.all_append, ih (n / 10) this, hd (n % 10) (by omega)]

theorem natCharsAux_ne_nil :
    ∀ fuel n, n < fuel → natCharsAux fuel n ≠ [] := by
  intro fuel
  cases fuel with
  | zero => omega
  | succ f =>
      intro n _
      unfold natCharsAux
      by_cases h10 : n < 10 <;> simp [h10]

theorem parseDigits_natCharsAux :
    ∀ fuel n, n < fuel → parseDigits (natCharsAux fuel n) = n := by
  intro fuel
  induction fuel with
  | zero => omega
  | succ f ih =>
      intro n hn
      unfold natCharsAux
      by_cases h10 : n < 10
      · have := toNat_ofNat_lt (n := 48 + n) (by omega)
        simp [h10, parseDigits, List.foldl, this]
      · have hlt : n / 10 < f := by omega
        have hmod := toNat_ofNat_lt (n := 48 + n % 10) (by omega)
        simp only [h10, if_false, parseDigits, List.foldl_append, List.foldl]
        have := ih (n / 10) hlt
        unfold parseDigits at this
        rw [this, hmod]
        omega

theorem parseDigits_natChars (n : Nat) : parseDigits (natChars n) = n :=
  parseDigits_natCharsAux (n + 1) n (by omega)

/-- Invariants carried by every successfully parsed URL. -/
def goodURL (u : URLRec) : Prop :=
  (u.scheme = "http".data ∨ u.scheme = "https".data)
  ∧ u.host ≠ []
  ∧ u.host.any hostForbidden = false
  ∧ lowerStr u.host = u.host
  ∧ ∀ n, u.port = some n → n ≤ 65535 ∧ n ≠ defaultPort u.scheme

theorem parsePort_inv {scheme ps : List Char} {n : Nat}
    (h : parsePort scheme ps = some (some n)) :
    n ≤ 65535 ∧ n ≠ defaultPort scheme := by
  unfold parsePort at h
  split at h
  · cases h
  · split at h
    · split at h
      · injection h with h
        split at h
        · cases h
        · injection h with h
          subst h
          constructor
          · assumption
          · assumption
      · cases h
    · cases h

theorem hostPortAux_inv {scheme host : List Char} {rest : Option (List Char)}
    {host2 : List Char} {port : Option Nat}
    (h : hostPortAux scheme host rest = some (host2, port)) :
    host2 = host ∧ host ≠ [] ∧ host.any hostForbidden = false
    ∧ ∀ n, port = some n → n ≤ 65535 ∧ n ≠ defaultPort scheme := by
  cases rest with
  | none =>
      simp only [hostPortAux] at h
      by_cases h1 : host = []
      · rw [if_pos h1] at h; cases h
      · rw [if_neg h1] at h
        by_cases h2 : host.any hostForbidden = true
        · rw [if_pos h2] at h; cases h
        · rw [if_neg h2] at h
          have h2f : host.any hostForbidden = false := by
            revert h2; cases host.any hostForbidden <;> simp
          injection h with h
          injection h with he1 he2
          subst he1; subst he2
          refine ⟨rfl, h1, h2f, ?_⟩
          intro n hn; cases hn
  | some ps =>
      simp only [hostPortAux] at h
      by_cases h1 : host = []
      · rw [if_pos h1] at h; cases h
      · rw [if_neg h1] at h
        by_cases h2 : host.any hostForbidden = true
        · rw [if_pos h2] at h; cases h
        · rw [if_neg h2] at h
          have h2f : host.any hostForbidden = false := by
            revert h2; cases host.any hostForbidden <;> simp
          rcases hpp : parsePort scheme ps with _ | p
          · rw [hpp] at h; cases h
          · rw [hpp] at h
            injection h with h
            injection h with he1 he2
            subst he1; subst he2
            refine ⟨rfl, h1, h2f, ?_⟩
            intro n hn
            subst hn
            exact parsePort_inv hpp

theorem parseHostPort_inv {scheme auth : List Char} {host : List Char}
    {port : Option Nat} (h : parseHostPort scheme auth = some (host, port)) :
    host ≠ [] ∧ host.any hostForbidden = false ∧ lowerStr host = host
    ∧ ∀ n, port = some n → n ≤ 65535 ∧ n ≠ defaultPort scheme := by
  unfold parseHostPort at h
  have := hostPortAux_inv h
  obtain ⟨he, h1, h2, h3⟩ := this
  subst he
  exact ⟨h1, h2, lowerStr_idem _, h3⟩

theorem parseAuthTail_inv {scheme auth after : List Char} {u : URLRec}
    (hs : scheme = "http".data ∨ scheme = "https".data)
    (h : parseAuthTail scheme auth after = some u) : goodURL u := by
  unfold parseAuthTail at h
  split at h
  · cases h
  · rename_i host port hpp
    injection h with h
    subst h
    have := parseHostPort_inv hpp
    exact ⟨hs, this.1, this.2.1, this.2.2.1, this.2.2.2⟩

theorem parseAfterScheme_good {scheme rest : List Char} {u : URLRec}
    (h : parseAfterScheme scheme rest = some u) : goodURL u := by
  unfold parseAfterScheme at h
  split at h
  · exact parseAuthTail_inv (by assumption) h
  · cases h

theorem parseURLc_good {s : List Char} {u : URLRec}
    (h : parseURLc s = some u) : goodURL u := by
  unfold parseURLc at h
  split at h
  · cases h
  · split at h
    · split at h
      · exact parseAfterScheme_good h
      · cases h
    · cases h

theorem forb_of_eq {c d : Char} (hd : hostForbidden d = true)
    (h : hostForbidden c = false) : c ≠ d := by
  intro he
  rw [he, hd] at h
  cases h

theorem host_char_facts {c : Char} (h : hostForbidden c = false) :
    (decide (c = '/') || decide (c = '\\')) = false
    ∧ authEndChar c = false ∧ decide (c = ':') = false ∧ c ≠ '@' := by
  have h1 : decide (c = '/') = false := decide_eq_false (forb_of_eq (by decide) h)
  have h2 : decide (c = '\\') = false := decide_eq_false (forb_of_eq (by decide) h)
  have h3 : decide (c = '?') = false := decide_eq_false (forb_of_eq (by decide) h)
  have h4 : decide (c = '#') = false := decide_eq_false (forb_of_eq (by decide) h)
  have h5 : decide (c = ':') = false := decide_eq_false (forb_of_eq (by decide) h)
  have h6 : c ≠ '@' := forb_of_eq (by decide) h
  refine ⟨?_, ?_, h5, h6⟩
  · rw [h1, h2]; rfl
  · simp [authEndChar, h1, h2, h3, h4]

theorem digit_char_facts {c : Char} (h : isDigitChar c = true) :
    authEndChar c = false ∧ decide (c = ':') = false ∧ c ≠ '@' := by
  have hn : 48 ≤ c.toNat ∧ c.toNat ≤ 57 := by
    simpa [isDigitChar] using h
  have hne : ∀ d : Char, ¬(48 ≤ d.toNat ∧ d.toNat ≤ 57) → c ≠ d := by
    intro d hd he
    exact hd (he ▸ hn)
  have h1 : decide (c = '/') = false := decide_eq_false (hne _ (by decide))
  have h2 : decide (c = '\\') = false := decide_eq_false (hne _ (by decide))
  have h3 : decide (c = '?') = false := decide_eq_false (hne _ (by decide))
  have h4 : decide (c = '#') = false := decide_eq_false (hne _ (by decide))
  have h5 : decide (c = ':') = false := decide_eq_false (hne _ (by decide))
  have h6 : c ≠ '@' := hne _ (by decide)
  exact ⟨by simp [authEndChar, h1, h2, h3, h4], h5, h6⟩

theorem parseHostPort_origin {sch host : List Char} {port : Option Nat}
    (hne : host ≠ []) (hforb : host.any hostForbidden = false)
    (hlow : lowerStr host = host)
    (hport : ∀ n, port = some n → n ≤ 65535 ∧ n ≠ defaultPort sch) :
    parseHostPort sch (host ++ portSuffix port) = some (host, port) := by
  have hmem : ∀ c ∈ host, hostForbidden c = false := by
    intro c hc
    by_contra hcc
    have : host.any hostForbidden = true :=
      List.any_eq_true.mpr ⟨c, hc, by revert hcc; cases hostForbidden c <;> simp⟩
    rw [this] at hforb; cases hforb
  have hat : ∀ c ∈ host ++ portSuffix port, c ≠ '@' := by
    intro c hc
    rcases List.mem_append.mp hc with hl | hr
    · exact (host_char_facts (hmem c hl)).2.2.2
    · cases hp : port with
      | none => rw [hp] at hr; cases hr
      | some n =>
          rw [hp] at hr
          simp only [portSuffix] at hr
          rcases List.mem_cons.mp hr with he | hd
          · subst he; decide
          · have : isDigitChar c = true := by
              have := natCharsAux_all_digits (n + 1) n (by omega)
              exact List.all_eq_true.mp this c hd
            exact (digit_char_facts this).2.2
  unfold parseHostPort
  rw [afterLastAt_of_no_at hat]
  cases hp : port with
  | none =>
      simp only [portSuffix, List.append_nil]
      rw [splitFirst_nosat (fun c hc => (host_char_facts (hmem c hc)).2.2.1)]
      simp only [hostPortAux, hlow]
      rw [if_neg hne, if_neg (by simp [hforb])]
  | some n =>
      simp only [portSuffix]
      rw [splitFirst_append_sat (by decide)
        (fun c hc => (host_char_facts (hmem c hc)).2.2.1)]
      simp only [hostPortAux, hlow]
      rw [if_neg hne, if_neg (by simp [hforb])]
      have hdig : (natChars n).all isDigitChar = true :=
        natCharsAux_all_digits (n + 1) n (by omega)
      have hnn : natChars n ≠ [] := natCharsAux_ne_nil (n + 1) n (by omega)
      obtain ⟨hle, hdef⟩ := hport n hp
      unfold parsePort
      rw [if_neg hnn, if_pos hdig, parseDigits_natChars, if_pos hle, if_neg hdef]

theorem parseAfterScheme_origin {sch host : List Char} {port : Option Nat}
    (hsch : sch = "http".data ∨ sch = "https".data)
    (hne : host ≠ []) (hforb : host.any hostForbidden = false)
    (hlow : lowerStr host = host)
    (hport : ∀ n, port = some n → n ≤ 65535 ∧ n ≠ defaultPort sch) :
    parseAfterScheme sch ('/' :: '/' :: (host ++ portSuffix port))
      = some { scheme := sch, host := host, port := port,
               path := [], query := none, fragment := none } := by
  have hmem : ∀ c ∈ host, hostForbidden c = false := by
    intro c hc
    by_contra hcc
    have : host.any hostForbidden = true :=
      List.any_eq_true.mpr ⟨c, hc, by revert hcc; cases hostForbidden c <;> simp⟩
    rw [this] at hforb; cases hforb
  have hauthall : ∀ c ∈ host ++ portSuffix port, (!authEndChar c) = true := by
    intro c hc
    rcases List.mem_append.mp hc with hl | hr
    · rw [(host_char_facts (hmem c hl)).2.1]; rfl
    · cases hp : port with
      | none => rw [hp] at hr; cases hr
      | some n =>
          rw [hp] at hr
          simp only [portSuffix] at hr
          rcases List.mem_cons.mp hr with he | hd
          · subst he; decide
          · have : isDigitChar c = true := by
              have := natCharsAux_all_digits (n + 1) n (by omega)
              exact List.all_eq_true.mp this c hd
            rw [(digit_char_facts this).1]; rfl
  obtain ⟨h0, htl, hhost⟩ : ∃ h0 htl, host = h0 :: htl := by
    cases hh : host with
    | nil => exact absurd hh hne
    | cons a b => exact ⟨a, b, rfl⟩
  have hslash0 : (decide (h0 = '/') || decide (h0 = '\\')) = false :=
    (host_char_facts (hmem h0 (hhost ▸ List.mem_cons_self h0 htl))).1
  have hdropslash :
      ('/' :: '/' :: (host ++ portSuffix port)).dropWhile
        (fun c => decide (c = '/') || decide (c = '\\'))
        = host ++ portSuffix port := by
    rw [hhost]
    simp only [List.cons_append, List.dropWhile]
    rw [hslash0]
    rfl
  unfold parseAfterScheme
  rw [if_pos hsch, hdropslash, takeWhile_all hauthall, dropWhile_all hauthall]
  unfold parseAuthTail
  rw [parseHostPort_origin hne hforb hlow hport]
  rfl

theorem parseURLc_http_eval (R : List Char) :
    parseURLc ('h' :: 't' :: 't' :: 'p' :: ':' :: R)
      = parseAfterScheme "http".data R := by
  have c1 : schemeChar 'h' = true := by decide
  have c2 : schemeChar 't' = true := by decide
  have c3 : schemeChar 'p' = true := by decide
  have c5 : schemeChar ':' = false := by decide
  have c6 : isAlphaChar 'h' = true := by decide
  have hdw : List.dropWhile schemeChar ('h' :: 't' :: 't' :: 'p' :: ':' :: R)
      = ':' :: R := by
    simp [List.dropWhile, c1, c2, c3, c5]
  have htw : List.takeWhile schemeChar ('h' :: 't' :: 't' :: 'p' :: ':' :: R)
      = ['h', 't', 't', 'p'] := by
    simp [List.takeWhile, c1, c2, c3, c5]
  have hls : lowerStr ['h', 't', 't', 'p'] = "http".data := by decide
  simp only [parseURLc, c6, if_true, hdw, htw, hls]

theorem parseURLc_https_eval (R : List Char) :
    parseURLc ('h' :: 't' :: 't' :: 'p' :: 's' :: ':' :: R)
      = parseAfterScheme "https".data R := by
  have c1 : schemeChar 'h' = true := by decide
  have c2 : schemeChar 't' = true := by decide
  have c3 : schemeChar 'p' = true := by decide
  have c4 : schemeChar 's' = true := by decide
  have c5 : schemeChar ':' = false := by decide
  have c6 : isAlphaChar 'h' = true := by decide
  have hdw : List.dropWhile schemeChar ('h' :: 't' :: 't' :: 'p' :: 's' :: ':' :: R)
      = ':' :: R := by
    simp [List.dropWhile, c1, c2, c3, c4, c5]
  have htw : List.takeWhile schemeChar ('h' :: 't' :: 't' :: 'p' :: 's' :: ':' :: R)
      = ['h', 't', 't', 'p', 's'] := by
    simp [List.takeWhile, c1, c2, c3, c4, c5]
  have hls : lowerStr ['h', 't', 't', 'p', 's'] = "https".data := by decide
  simp only [parseURLc, c6, if_true, hdw, htw, hls]

theorem parse_origin_roundtrip {u : URLRec} (hg : goodURL u) :
    parseURLc (originChars u)
      = some { scheme := u.scheme, host := u.host, port := u.port,
               path := [], query := none, fragment := none } := by
  obtain ⟨hs, hne, hforb, hlow, hport⟩ := hg
  rcases hs with hsch | hsch
  · have : originChars u
        = 'h' :: 't' :: 't' :: 'p' :: ':' :: ('/' :: '/' :: (u.host ++ portSuffix u.port)) := by
      rw [originChars, hsch]
      simp [List.cons_append, List.append_assoc]
    rw [this, parseURLc_http_eval,
      parseAfterScheme_origin (Or.inl rfl) hne hforb hlow (hsch ▸ hport), hsch]
  · have : originChars u
        = 'h' :: 't' :: 't' :: 'p' :: 's' :: ':' :: ('/' :: '/' :: (u.host ++ portSuffix u.port)) := by
      rw [originChars, hsch]
      simp [List.cons_append, List.append_assoc]
    rw [this, parseURLc_https_eval,
      parseAfterScheme_origin (Or.inr rfl) hne hforb hlow (hsch ▸ hport), hsch]

/-- C6 counterexample: `"http.example.com"` lacks a URL scheme, yet the code
does not prefix `https://` (the string starts with `"http"`), so normalization
fails, while the claim's prefix-on-missing-scheme rule would succeed; moreover
even an accepted input yields the origin plus a trailing `/` path, not the
bare origin. -/
theorem C6_normalise_cex :
    specHasScheme "http.example.com" = false
    ∧ normaliseOrigin "http.example.com" = .error "Invalid URL"
    ∧ specNormaliseOrigin "http.example.com" = .ok "https://http.example.com"
    ∧ normaliseOrigin "example.com" = .ok "https://example.com/" := by
  refine ⟨by decide, rfl, rfl, rfl⟩

/-- C6 amended: the input is prefixed with `https://` exactly when it does not
start with the literal `"http"`; an unparsable (possibly prefixed) string
fails with an error; otherwise the result is the URL's origin — scheme, host
and non-default port — serialized with a trailing `/` path and no query. -/
theorem C6_normalise_amended (s : String) :
    normaliseOrigin s =
      match parseURL (if strStarts s "http" then s else "https://" ++ s) with
      | none => Except.error "Invalid URL"
      | some u => Except.ok (String.mk (originChars u ++ ['/'])) := by
  unfold normaliseOrigin
  cases hp : parseURL (if strStarts s "http" then s else "https://" ++ s) with
  | none => rfl
  | some u =>
      have hg : goodURL u := parseURLc_good hp
      have hrt := parse_origin_roundtrip hg
      change (match parseURLc (originChars u) with
        | none => Except.error "Invalid URL"
        | some u2 => Except.ok (serializeURL u2))
        = Except.ok (String.mk (originChars u ++ ['/']))
      rw [hrt]
      simp [serializeURL, originChars, List.append_assoc]

/-! ### The POST handler

The network-dependent single-origin audit (`auditOne`) is abstracted as a
function argument `audit`; the optional N8N webhook is a fire-and-forget side
effect that cannot change the response, so it is not part of the response
model. -/

/-- `unique` from the source: `[...new Set(arr)]` — first-seen order. -/
def unique {α : Type} [DecidableEq α] (arr : List α) : List α :=
  arr.foldl (fun acc x => if x ∈ acc then acc else acc ++ [x]) []

/-- The request's `body.url`: either a single string or a list of strings. -/
inductive ReqUrl where
  | one (s : String)
  | many (l : List String)

/-- The JSON payload of the response: a single result, a list of results, or
an error object. -/
inductive RespBody (α : Type) where
  | single (a : α)
  | list (l : List α)
  | err (msg : String)
deriving DecidableEq

/-- `list.map(normaliseOrigin)` (or the one-element version) — the first
thrown error aborts, as in JS. -/
def normaliseAll : ReqUrl → Except String (List String)
  | .one s => (normaliseOrigin s).map (fun r => [r])
  | .many l => l.mapM normaliseOrigin

/-- `Array.from(new Set(list.filter(Boolean))).slice(0, 10)` — JS string
truthiness keeps the non-empty strings. -/
def dedupTen (list : List String) : List String :=
  (unique (list.filter (fun s => s ≠ ""))).take 10

/-- The `POST` handler from the source: normalise and deduplicate the batch,
run every audit (`Promise.all` — first failure rejects), and answer 200 with
one result or the result list; any thrown error answers 500. -/
def POST {α : Type} (audit : String → Except String α) (input : ReqUrl) :
    Nat × RespBody α :=
  match normaliseAll input with
  | .error e => (500, .err e)
  | .ok list =>
    match (dedupTen list).mapM audit with
    | .error e => (500, .err e)
    | .ok results =>
        match results with
        | [r] => (200, .single r)
        | rs => (200, .list rs)

/-- C5 counterexample: an empty input list is answered with HTTP 200 and an
empty result list — a successful empty result, not an error response; no
`EmptyBatchError` exists in the code. -/
theorem C5_empty_batch_cex :
    POST (fun s => Except.ok s) (.many []) = (200, RespBody.list []) := rfl

/-- C5 amended: whenever normalization succeeds and the deduplicated origin
list is empty (only possible for an empty input list), the handler returns a
successful 200 response carrying an empty list, for every audit function. -/
theorem C5_empty_batch_amended {α : Type} (audit : String → Except String α)
    (input : ReqUrl) (l : List String)
    (hn : normaliseAll input = .ok l) (hd : dedupTen l = []) :
    POST audit input = (200, RespBody.list []) := by
  unfold POST
  rw [hn]
  change (match (dedupTen l).mapM audit with
    | Except.error e => (500, RespBody.err e)
    | Except.ok results =>
        match results with
        | [r] => (200, RespBody.single r)
        | rs => (200, RespBody.list rs)) = (200, RespBody.list [])
  rw [hd]
  rfl

/-- Witness for C5 amended: the empty input list with a trivial audit. -/
theorem C5_empty_batch_amended_witness :
    POST (fun _ => Except.error "unreachable" : String → Except String Unit)
      (.many []) = (200, RespBody.list []) :=
  C5_empty_batch_amended _ (.many []) [] rfl rfl

/-! ### Regular-expression engine

The source scans markup with JS `RegExp`s. They are modelled by a small
backtracking engine over explicit regex syntax trees: alternation is
left-biased, quantifiers are greedy or lazy, repetition stops on empty body
matches, numbered groups capture the consumed text (last iteration wins) —
the standard JS backtracking semantics for the patterns used here. Fuel makes
every function structurally recursive; the fuel bounds below exceed the
longest possible backtracking path for each call. -/

/-- The apostrophe character (U+0027). -/
def squote : Char := Char.ofNat 39

/-- Regex syntax trees. `lit ci s` is a literal (case-insensitive when `ci`),
`cls` a character class, `star`/`opt` carry a greediness flag, `grp` a
numbered capturing group and `wb` is the `\b` word boundary. -/
inductive RE where
  | eps
  | cls (p : Char → Bool)
  | lit (ci : Bool) (s : List Char)
  | cat (a b : RE)
  | alt (a b : RE)
  | star (greedy : Bool) (r : RE)
  | opt (greedy : Bool) (r : RE)
  | grp (n : Nat) (r : RE)
  | wb

/-- Node count, used for fuel bounds. -/
def reSize : RE → Nat
  | .eps => 1
  | .cls _ => 1
  | .lit _ l => l.length + 1
  | .cat a b => reSize a + reSize b + 1
  | .alt a b => reSize a + reSize b + 1
  | .star _ r => reSize r + 1
  | .opt _ r => reSize r + 1
  | .grp _ r => reSize r + 1
  | .wb => 1

/-- Captures: group number to captured text, most recent first. -/
def Caps := List (Nat × List Char)

/-- Look up a capture group (`m[n]`; `none` models `undefined`). -/
def capGet (caps : Caps) (n : Nat) : Option (List Char) :=
  ((caps : List (Nat × List Char)).find? (fun p => p.1 = n)).map (fun p => p.2)

/-- Character comparison, optionally ASCII-case-insensitive (the JS `i`
flag). -/
def ciEq (ci : Bool) (a b : Char) : Bool :=
  if ci then toLowerChar a = toLowerChar b else a = b

/-- Match a literal, returning the updated previous-character and remaining
input. -/
def litAt (ci : Bool) : List Char → Option Char → List Char →
    Option (Option Char × List Char)
  | [], prev, s => some (prev, s)
  | c :: ct, prev, s =>
      match s with
      | [] => none
      | d :: dt => if ciEq ci c d then litAt ci ct (some d) dt else none

/-- JS `\w` word characters (for `\b`). -/
def isWordChar (c : Char) : Bool := isAlphaChar c || isDigitChar c || c = '_'

/-- All ways the regex can match a prefix of `s`, in backtracking priority
order; each outcome is (previous char, remaining input, captures). `prev` is
the character before the current position (for `\b`). -/
def mAll : Nat → RE → Option Char → List Char → Caps →
    List (Option Char × List Char × Caps)
  | 0, _, _, _, _ => []
  | fuel + 1, re, prev, s, caps =>
    match re with
    | .eps => [(prev, s, caps)]
    | .cls p =>
        match s with
        | [] => []
        | c :: t => if p c then [(some c, t, caps)] else []
    | .lit ci l =>
        match litAt ci l prev s with
        | some r => [(r.1, r.2, caps)]
        | none => []
    | .cat a b =>
        (mAll fuel a prev s caps).flatMap (fun o => mAll fuel b o.1 o.2.1 o.2.2)
    | .alt a b => mAll fuel a prev s caps ++ mAll fuel b prev s caps
    | .star g r =>
        let deeper := (mAll fuel r prev s caps).flatMap (fun o =>
          if o.2.1.length < s.length then mAll fuel (.star g r) o.1 o.2.1 o.2.2
          else [])
        if g then deeper ++ [(prev, s, caps)] else (prev, s, caps) :: deeper
    | .opt g r =>
        if g then mAll fuel r prev s caps ++ [(prev, s, caps)]
        else (prev, s, caps) :: mAll fuel r prev s caps
    | .grp n r =>
        (mAll fuel r prev s caps).map (fun o =>
          (o.1, o.2.1, ((n, s.take (s.length - o.2.1.length)) :: o.2.2 : List (Nat × List Char))))
    | .wb =>
        let pw := match prev with | none => false | some c => isWordChar c
        let nw := match s with | [] => false | c :: _ => isWordChar c
        if pw ≠ nw then [(prev, s, caps)] else []

/-- Fuel bound for one anchored match attempt. -/
def mFuel (re : RE) (s : List Char) : Nat := (reSize re + 2) * (s.length + 2)

/-- The match at the current position, if any (highest-priority outcome). -/
def matchHere (re : RE) (prev : Option Char) (s : List Char) :
    Option (Option Char × List Char × Caps) :=
  (mAll (mFuel re s) re prev s []).head?

/-- Global scan (JS `lastIndex` advancing): returns the list of
(gap before match, matched text, captures) segments and the trailing gap. -/
def scanAll : Nat → RE → Option Char → List Char →
    List (List Char × List Char × Caps) × List Char
  | 0, _, _, s => ([], s)
  | fuel + 1, re, prev, s =>
    match matchHere re prev s with
    | none =>
        match s with
        | [] => ([], [])
        | c :: t =>
            let r := scanAll fuel re (some c) t
            match r.1 with
            | [] => ([], c :: r.2)
            | (g, m, cp) :: ms => ((c :: g, m, cp) :: ms, r.2)
    | some (_, rest, caps) =>
        let len := s.length - rest.length
        if len = 0 then
          match s with
          | [] => ([([], [], caps)], [])
          | c :: t =>
              let r := scanAll fuel re (some c) t
              match r.1 with
              | [] => ([([], [], caps)], c :: r.2)
              | (g, m, cp) :: ms =>
                  (([], [], caps) :: (c :: g, m, cp) :: ms, r.2)
        else
          let matched := s.take len
          let prev2 := match matched.getLast? with
            | some c => some c
            | none => prev
          let r := scanAll fuel re prev2 rest
          (([], matched, caps) :: r.1, r.2)

/-- All matches of a global regex (`String.prototype.matchAll`): matched text
and captures. -/
def reFindAll (re : RE) (s : List Char) : List (List Char × Caps) :=
  ((scanAll (s.length + 2) re none s).1).map (fun x => (x.2.1, x.2.2))

/-- `RegExp.prototype.test`. -/
def reTest (re : RE) (s : List Char) : Bool := !(reFindAll re s).isEmpty

/-- Number of matches (`(s.match(re) || []).length` for a global regex). -/
def reCount (re : RE) (s : List Char) : Nat := (reFindAll re s).length

/-- First match (`re.exec(s)`). -/
def reExec (re : RE) (s : List Char) : Option (List Char × Caps) :=
  (reFindAll re s).head?

/-- Reassemble unconsumed segments. -/
def reassemble (ms : List (List Char × List Char × Caps)) (tail : List Char) :
    List Char :=
  (ms.flatMap (fun x => x.1 ++ x.2.1)) ++ tail

/-- `s.replace(re, rep)` for a global regex with a constant replacement. -/
def reReplaceAll (re : RE) (rep : List Char) (s : List Char) : List Char :=
  let r := scanAll (s.length + 2) re none s
  (r.1.flatMap (fun x => x.1 ++ rep)) ++ r.2

/-- `s.replace(re, rep)` for a non-global regex: first match only. -/
def reReplaceFirst (re : RE) (rep : List Char) (s : List Char) : List Char :=
  let r := scanAll (s.length + 2) re none s
  match r.1 with
  | [] => s
  | (g, _, _) :: ms => g ++ rep ++ reassemble ms r.2

/-- Sequence a list of regexes. -/
def rcat (l : List RE) : RE := l.foldr RE.cat RE.eps

/-- One-or-more. -/
def rplus (r : RE) : RE := .cat r (.star true r)

/-- Any character (JS `[\s\S]`). -/
def anyCh : RE := .cls (fun _ => true)

/-- JS `\s` (ASCII part: space, tab, LF, CR, VT, FF). -/
def wsCh (c : Char) : Bool :=
  c = ' ' || c = '\t' || c = '\n' || c = '\r' || c.toNat = 11 || c.toNat = 12

/-- `[^>]`. -/
def notGt (c : Char) : Bool := c ≠ '>'

/-- `['"]`. -/
def quoteCh (c : Char) : Bool := c = '"' || c = squote

/-- `[^'"]`. -/
def notQuote (c : Char) : Bool := !quoteCh c

/-! ### JSON

`JSON.parse` is modelled by an executable strict JSON parser; numbers are
modelled exactly as rationals. A `StructuredRecord` is a parsed value. -/

/-- JSON values. -/
inductive JVal where
  | null
  | bool (b : Bool)
  | num (q : ℚ)
  | str (s : String)
  | arr (l : List JVal)
  | obj (l : List (String × JVal))
deriving Repr

/-- JSON whitespace. -/
def jsonWs (c : Char) : Bool := c = ' ' || c = '\t' || c = '\n' || c = '\r'

/-- Drop JSON whitespace. -/
def skipWs (l : List Char) : List Char := l.dropWhile jsonWs

/-- Hex digit value. -/
def hexVal (c : Char) : Option Nat :=
  if 48 ≤ c.toNat ∧ c.toNat ≤ 57 then some (c.toNat - 48)
  else if 97 ≤ (toLowerChar c).toNat ∧ (toLowerChar c).toNat ≤ 102 then
    some ((toLowerChar c).toNat - 87)
  else none

/-- JSON string body after the opening quote: processed content and the
remainder after the closing quote. -/
def parseJStr : Nat → List Char → Option (List Char × List Char)
  | 0, _ => none
  | _ + 1, [] => none
  | fuel + 1, c :: t =>
      if c = '"' then some ([], t)
      else if c = '\\' then
        match t with
        | [] => none
        | e :: t2 =>
            let cont (ch : Char) (rest : List Char) :
                Option (List Char × List Char) :=
              match parseJStr fuel rest with
              | some (s, r) => some (ch :: s, r)
              | none => none
            if e = '"' then cont '"' t2
            else if e = '\\' then cont '\\' t2
            else if e = '/' then cont '/' t2
            else if e = 'b' then cont (Char.ofNat 8) t2
            else if e = 'f' then cont (Char.ofNat 12) t2
            else if e = 'n' then cont '\n' t2
            else if e = 'r' then cont '\r' t2
            else if e = 't' then cont '\t' t2
            else if e = 'u' then
              match t2 with
              | h1 :: h2 :: h3 :: h4 :: t3 =>
                  match hexVal h1, hexVal h2, hexVal h3, hexVal h4 with
                  | some a, some b, some c2, some d =>
                      cont (Char.ofNat (((a * 16 + b) * 16 + c2) * 16 + d)) t3
                  | _, _, _, _ => none
              | _ => none
            else none
      else
        match parseJStr fuel t with
        | some (s, r) => some (c :: s, r)
        | none => none

/-- JSON number: `-? int frac? exp?` with the strict leading-zero rule. -/
def parseJNum (l : List Char) : Option (ℚ × List Char) :=
  let (neg, l1) := match l with
    | '-' :: t => (true, t)
    | _ => (false, l)
  let intDigits := l1.takeWhile isDigitChar
  let l2 := l1.dropWhile isDigitChar
  if intDigits = [] then none
  else if intDigits.length > 1 ∧ intDigits.head? = some '0' then none
  else
    let (fracDigits, l3) := match l2 with
      | '.' :: t =>
          (t.takeWhile isDigitChar, t.dropWhile isDigitChar)
      | _ => ([], l2)
    if l2.head? = some '.' ∧ fracDigits = [] then none
    else
      let expPart : Option (Int × List Char) := match l3 with
        | 'e' :: t | 'E' :: t =>
            let (esign, t2) := match t with
              | '+' :: t3 => ((1 : Int), t3)
              | '-' :: t3 => ((-1 : Int), t3)
              | _ => ((1 : Int), t)
            let expDigits := t2.takeWhile isDigitChar
            if expDigits = [] then none
            else some (esign * parseDigits expDigits,
              t2.dropWhile isDigitChar)
        | _ => some (0, l3)
      match expPart with
      | none => none
      | some (e, l4) =>
          let mant : ℚ := (parseDigits intDigits : ℚ)
            + (parseDigits fracDigits : ℚ) / (10 : ℚ) ^ fracDigits.length
          some ((if neg then -mant else mant) * (10 : ℚ) ^ e, l4)

/-- `"key" ws : ` of an object member. -/
def parseKeyColon (fuel : Nat) (l : List Char) : Option (String × List Char) :=
  match skipWs l with
  | '"' :: t =>
      match parseJStr fuel t with
      | some (k, r) =>
          match skipWs r with
          | ':' :: r2 => some (String.mk k, r2)
          | _ => none
      | none => none
  | _ => none

/-- Pending container frames of the JSON stack machine. -/
inductive JFrame where
  | arrF (items : List JVal)
  | objF (items : List (String × JVal)) (key : String)

/-- Machine phase: expecting a value, or holding a completed value. -/
inductive JPhase where
  | val
  | after (v : JVal)

/-- The JSON parsing machine: one fuel tick per consumed token. -/
def pj : Nat → JPhase → List Char → List JFrame → Option JVal
  | 0, _, _, _ => none
  | fuel + 1, .val, l, st =>
      match skipWs l with
      | [] => none
      | 'n' :: 'u' :: 'l' :: 'l' :: t => pj fuel (.after .null) t st
      | 't' :: 'r' :: 'u' :: 'e' :: t => pj fuel (.after (.bool true)) t st
      | 'f' :: 'a' :: 'l' :: 's' :: 'e' :: t => pj fuel (.after (.bool false)) t st
      | '"' :: t =>
          match parseJStr (t.length + 1) t with
          | some (s, r) => pj fuel (.after (.str (String.mk s))) r st
          | none => none
      | '[' :: t =>
          match skipWs t with
          | ']' :: t2 => pj fuel (.after (.arr [])) t2 st
          | _ => pj fuel .val t (.arrF [] :: st)
      | '{' :: t =>
          match skipWs t with
          | '}' :: t2 => pj fuel (.after (.obj [])) t2 st
          | _ =>
              match parseKeyColon (t.length + 1) t with
              | some (k, rest) => pj fuel .val rest (.objF [] k :: st)
              | none => none
      | l2 =>
          match parseJNum l2 with
          | some (q, r) => pj fuel (.after (.num q)) r st
          | none => none
  | fuel + 1, .after v, l, st =>
      match st with
      | [] => if skipWs l = [] then some v else none
      | .arrF items :: st2 =>
          match skipWs l with
          | ',' :: t => pj fuel .val t (.arrF (v :: items) :: st2)
          | ']' :: t => pj fuel (.after (.arr (v :: items).reverse)) t st2
          | _ => none
      | .objF items k :: st2 =>
          match skipWs l with
          | ',' :: t =>
              match parseKeyColon (t.length + 1) t with
              | some (k2, rest) =>
                  pj fuel .val rest (.objF ((k, v) :: items) k2 :: st2)
              | none => none
          | '}' :: t => pj fuel (.after (.obj ((k, v) :: items).reverse)) t st2
          | _ => none

/-- `JSON.parse` on a character list. -/
def parseJsonC (l : List Char) : Option JVal := pj (l.length + 2) .val l []

/-! ### JSON-LD extraction -/

/-- `/<script[^>]+type="application\/ld\+json"[^>]*>([\s\S]*?)<\/script>/gi`. -/
def scriptLdRe : RE :=
  rcat [.lit true "<script".data, rplus (.cls notGt),
        .lit true "type=\"application/ld+json\"".data,
        .star true (.cls notGt), .lit true ">".data,
        .grp 1 (.star false anyCh), .lit true "</script>".data]

/-- The raw inner text (`m[1]`) of each structured-data block found in the
markup. -/
def findJsonLdBlocks (html : String) : List (List Char) :=
  (reFindAll scriptLdRe html.data).map (fun m => (capGet m.2 1).getD [])

/-- JS `String.prototype.trim` (ASCII whitespace). -/
def jsTrim (l : List Char) : List Char :=
  ((l.dropWhile wsCh).reverse.dropWhile wsCh).reverse

/-- `extractJsonLd` from the source: parse each block independently; arrays
are spread, other values pushed; parse failures are dropped silently. -/
def extractJsonLd (html : String) : List JVal :=
  (findJsonLdBlocks html).foldl (fun out b =>
    match parseJsonC (jsTrim b) with
    | some (.arr xs) => out ++ xs
    | some v => out ++ [v]
    | none => out) []

/-- C8: when the markup carries exactly two structured-data blocks, one
parsing as a non-array JSON value and the other failing to parse (in either
order), extraction returns exactly the one record and does not fail. -/
theorem C8_jsonld_tolerant (html : String) (b c : List Char) (v : JVal)
    (hb : findJsonLdBlocks html = [b, c])
    (hv : (parseJsonC (jsTrim b) = some v ∧ (∀ xs, v ≠ .arr xs)
            ∧ parseJsonC (jsTrim c) = none)
        ∨ (parseJsonC (jsTrim b) = none ∧ parseJsonC (jsTrim c) = some v
            ∧ (∀ xs, v ≠ .arr xs))) :
    extractJsonLd html = [v] := by
  unfold extractJsonLd
  rw [hb]
  rcases hv with ⟨h1, h2, h3⟩ | ⟨h1, h2, h3⟩
  · simp only [List.foldl, h1, h3]
    cases v with
    | arr xs => exact absurd rfl (h2 xs)
    | null => rfl
    | bool b2 => rfl
    | num q => rfl
    | str s2 => rfl
    | obj o => rfl
  · simp only [List.foldl, h1, h2]
    cases v with
    | arr xs => exact absurd rfl (h3 xs)
    | null => rfl
    | bool b2 => rfl
    | num q => rfl
    | str s2 => rfl
    | obj o => rfl

/-- A page with one valid block (a single Organization object) and one
malformed block. -/
def c8Html : String :=
  "<script a type=\"application/ld+json\"> \x7b\"@type\":\"Organization\"\x7d </script><script b type=\"application/ld+json\">\x7boops</script>"

set_option maxRecDepth 100000 in
/-- Witness for C8 at a concrete page. -/
theorem C8_jsonld_tolerant_witness :
    extractJsonLd c8Html = [JVal.obj [("@type", JVal.str "Organization")]] :=
  C8_jsonld_tolerant c8Html
    " \x7b\"@type\":\"Organization\"\x7d ".data "\x7boops".data
    (JVal.obj [("@type", JVal.str "Organization")])
    rfl
    (Or.inl ⟨rfl, fun xs h => JVal.noConfusion h, rfl⟩)

/-! ### Contact discovery (email body scan and best pick) -/

/-- A discovered contact (`{ type; value; sourceUrl; context?; confidence }`). -/
structure Contact where
  type : String
  value : String
  sourceUrl : String
  context : Option String := none
  confidence : ℚ
deriving DecidableEq, Repr

/-- `[a-z0-9._%+-]` under the `i` flag. -/
def emailLocalCh (c : Char) : Bool :=
  (97 ≤ (toLowerChar c).toNat && (toLowerChar c).toNat ≤ 122) || isDigitChar c
  || c = '.' || c = '_' || c = '%' || c = '+' || c = '-'

/-- `[a-z0-9.-]` under the `i` flag. -/
def emailDomCh (c : Char) : Bool :=
  (97 ≤ (toLowerChar c).toNat && (toLowerChar c).toNat ≤ 122) || isDigitChar c
  || c = '.' || c = '-'

/-- `[a-z]` under the `i` flag. -/
def alphaCI (c : Char) : Bool :=
  97 ≤ (toLowerChar c).toNat && (toLowerChar c).toNat ≤ 122

/-- `EMAIL_RE` from the source:
`/([a-z0-9._%+-]+)\s?(?:\[at\]|@)\s?([a-z0-9.-]+\.[a-z]{2,})/ig` — the local
part, an optional space, a literal `[at]` or `@`, an optional space, and a
domain that must contain a literal dot before its final `[a-z]{2,}` label. -/
def EMAIL_RE : RE :=
  rcat [.grp 1 (rplus (.cls emailLocalCh)),
        .opt true (.cls wsCh),
        .alt (.lit true "[at]".data) (.lit true "@".data),
        .opt true (.cls wsCh),
        .grp 2 (rcat [rplus (.cls emailDomCh), .lit true ".".data,
                      .cls alphaCI, .star true (.cls alphaCI)])]

/-- `deobfuscateEmail` from the source: replace the first `\s?\[at\]\s?` with
`@` and every `\s?\[dot\]\s?` with `.` (both case-insensitive). -/
def deobfuscateEmail (s : List Char) : List Char :=
  reReplaceAll (rcat [.opt true (.cls wsCh), .lit true "[dot]".data,
      .opt true (.cls wsCh)]) ".".data
    (reReplaceFirst (rcat [.opt true (.cls wsCh), .lit true "[at]".data,
      .opt true (.cls wsCh)]) "@".data s)

/-- `/<script[\s\S]*?<\/script>/gi`. -/
def scriptStripRe : RE :=
  rcat [.lit true "<script".data, .star false anyCh, .lit true "</script>".data]

/-- `/<style[\s\S]*?<\/style>/gi`. -/
def styleStripRe : RE :=
  rcat [.lit true "<style".data, .star false anyCh, .lit true "</style>".data]

/-- `/<[^>]+>/g`. -/
def tagSpaceRe : RE :=
  rcat [.lit false "<".data, rplus (.cls notGt), .lit false ">".data]

/-- The tag-stripped body text of `discoverContacts`:
`html.replace(/<script...>/gi,'').replace(/<style...>/gi,'').replace(/<[^>]+>/g,' ')`. -/
def bodyTextOf (html : List Char) : List Char :=
  reReplaceAll tagSpaceRe " ".data
    (reReplaceAll styleStripRe []
      (reReplaceAll scriptStripRe [] html))

/-- The email contacts produced by the body-text scan of `discoverContacts`:
one contact per `EMAIL_RE` match, with
`deobfuscateEmail(local + "@" + domain).toLowerCase()` at confidence 0.6. -/
def emailContactsFromBody (url : String) (html : String) : List Contact :=
  (reFindAll EMAIL_RE (bodyTextOf html.data)).map (fun m =>
    { type := "email",
      value := String.mk (lowerStr (deobfuscateEmail
        ((capGet m.2 1).getD [] ++ '@' :: (capGet m.2 2).getD []))),
      sourceUrl := url,
      confidence := 3/5 })

set_option maxRecDepth 100000 in
/-- C7: the body text `jane [at] example [dot] com` yields NO email contact —
`EMAIL_RE` requires a literal dot in the domain and only tolerates `[at]`,
so the `[dot]` obfuscation that `deobfuscateEmail` is written to undo can
never reach it; the same text with a literal dot does yield the contact. -/
theorem C7_at_dot_email_bug :
    emailContactsFromBody "https://x.com"
      "<p>Contact: jane [at] example [dot] com</p>" = []
    ∧ emailContactsFromBody "https://x.com" "<p>jane [at] example.com</p>"
      = [{ type := "email", value := "jane@example.com",
           sourceUrl := "https://x.com", confidence := 3/5 }] := by
  constructor
  · rfl
  · rfl

/-- Stable insertion of a contact into a descending-confidence list (a model
of JS `Array.prototype.sort`, which is stable, under the comparator
`(a,b) => b.confidence - a.confidence`). -/
def insDesc (c : Contact) : List Contact → List Contact
  | [] => [c]
  | b :: t => if c.confidence ≥ b.confidence then c :: b :: t else b :: insDesc c t

/-- Stable sort by descending confidence. -/
def sortByConfDesc (l : List Contact) : List Contact := l.foldr insDesc []

/-- The filter of the best-contact pick. -/
def isEmailOrCalendly (c : Contact) : Bool :=
  c.type = "email" || c.type = "calendly"

/-- The `best` pick of `discoverContacts`:
`out.filter(c => c.type==='email'||c.type==='calendly')
.sort((a,b)=>b.confidence-a.confidence)[0] || null`. -/
def bestOf (contacts : List Contact) : Option Contact :=
  (sortByConfDesc (contacts.filter isEmailOrCalendly)).head?

/-- Spec wording: the single highest-confidence entry among the email and
calendly contacts, ties broken by first-seen order, none when there are
none. -/
def specBestPick : List Contact → Option Contact
  | [] => none
  | c :: t =>
      match specBestPick t with
      | none => some c
      | some b => if c.confidence ≥ b.confidence then some c else some b

theorem insDesc_ne_nil (c : Contact) (l : List Contact) : insDesc c l ≠ [] := by
  cases l with
  | nil => simp [insDesc]
  | cons b t =>
      unfold insDesc
      by_cases h : c.confidence ≥ b.confidence <;> simp [h]

theorem sortByConfDesc_nil_iff (l : List Contact) :
    sortByConfDesc l = [] ↔ l = [] := by
  cases l with
  | nil => simp [sortByConfDesc]
  | cons c t =>
      simp only [sortByConfDesc, List.foldr]
      exact ⟨fun h => absurd h (insDesc_ne_nil c _), fun h => List.noConfusion h⟩

theorem head_insDesc (c : Contact) (l : List Contact) :
    (insDesc c l).head? = match l.head? with
      | none => some c
      | some b => if c.confidence ≥ b.confidence then some c else some b := by
  cases l with
  | nil => rfl
  | cons b t =>
      unfold insDesc
      by_cases h : c.confidence ≥ b.confidence <;> simp [h]

theorem head_sortDesc (l : List Contact) :
    (sortByConfDesc l).head? = specBestPick l := by
  induction l with
  | nil => rfl
  | cons c t ih =>
      show (insDesc c (sortByConfDesc t)).head? = _
      rw [head_insDesc]
      unfold specBestPick
      rw [← ih]

/-- Example contacts: a body-scan email at confidence 0.6 and a Calendly link
at confidence 0.85. -/
def emailC : Contact :=
  { type := "email", value := "a@b.co", sourceUrl := "u", confidence := 3/5 }

/-- Calendly example contact. -/
def calC : Contact :=
  { type := "calendly", value := "https://calendly.com/x", sourceUrl := "u",
    confidence := 17/20 }

/-- C9: the best pick is the first-seen highest-confidence contact among the
email/calendly contacts (none when there are none); in particular an email at
0.6 against a Calendly at 0.85 selects the Calendly contact. -/
theorem C9_best_contact :
    (∀ contacts : List Contact,
      bestOf contacts = specBestPick (contacts.filter isEmailOrCalendly))
    ∧ bestOf [emailC, calC] = some calC := by
  constructor
  · intro contacts
    exact head_sortDesc _
  · show (sortByConfDesc ([emailC, calC].filter isEmailOrCalendly)).head? = some calC
    have hf : [emailC, calC].filter isEmailOrCalendly = [emailC, calC] := rfl
    rw [hf]
    show (insDesc emailC (insDesc calC [])).head? = some calC
    have h1 : insDesc calC [] = [calC] := rfl
    rw [h1]
    unfold insDesc
    have hc : ¬ (emailC.confidence ≥ calC.confidence) := by
      show ¬ ((3 : ℚ)/5 ≥ 17/20)
      norm_num
    rw [if_neg hc]
    rfl

/-! ### On-page checks: `evaluateHome`

One helper per check; `evaluateHome` assembles the fixed issue list. The
`new URL(url)` call inside the internal-links check is outside any try/catch,
so an unparsable `url` makes the whole function throw, discarding the issues
pushed before it — modelled as `Except.error`. -/

/-- `new Date().getFullYear()` captured at module initialisation, for a
process started in 2026. -/
def THIS_YEAR : Nat := 2026

/-- ASCII uppercasing (JS `toUpperCase` on the ASCII range). -/
def toUpperChar (c : Char) : Char :=
  if 97 ≤ c.toNat ∧ c.toNat ≤ 122 then Char.ofNat (c.toNat - 32) else c

/-- Uppercase a character list. -/
def upperStr (l : List Char) : List Char := l.map toUpperChar

/-- `Headers.get` (case-insensitive name lookup, `none` when absent). -/
def headersGet (hs : List (String × String)) (name : String) : Option String :=
  (hs.find? (fun kv => lowerStr kv.1.data = lowerStr name.data)).map (fun kv => kv.2)

/-- Anchored test: match at position 0 only (JS `^...`). -/
def reTestStart (re : RE) (s : List Char) : Bool :=
  !(mAll (mFuel re s) re none s []).isEmpty

/-- `/<title>([\s\S]*?)<\/title>/i`. -/
def reTitle : RE :=
  rcat [.lit true "<title>".data, .grp 1 (.star false anyCh),
        .lit true "</title>".data]

/-- `<meta[^>]+name=['"]NAME['"][^>]+content=['"]([^'"]*)['"][^>]*>` (i). -/
def reMetaNamedContent (nm : String) : RE :=
  rcat [.lit true "<meta".data, rplus (.cls notGt), .lit true "name=".data,
        .cls quoteCh, .lit true nm.data, .cls quoteCh, rplus (.cls notGt),
        .lit true "content=".data, .cls quoteCh,
        .grp 1 (.star true (.cls notQuote)), .cls quoteCh,
        .star true (.cls notGt), .lit true ">".data]

/-- `/<meta[^>]+name=['"]viewport['"][^>]+>/i`. -/
def reViewport : RE :=
  rcat [.lit true "<meta".data, rplus (.cls notGt), .lit true "name=".data,
        .cls quoteCh, .lit true "viewport".data, .cls quoteCh,
        rplus (.cls notGt), .lit true ">".data]

/-- `/<(h[1-6])\b[^>]*>/gi`. -/
def reHeading : RE :=
  rcat [.lit true "<".data,
        .grp 1 (rcat [.lit true "h".data,
          .cls (fun c => 49 ≤ c.toNat && c.toNat ≤ 54)]),
        .wb, .star true (.cls notGt), .lit true ">".data]

/-- `/<link[^>]+rel=['"]canonical['"][^>]+href=['"]([^'"]+)['"][^>]*>/i`. -/
def reCanonical : RE :=
  rcat [.lit true "<link".data, rplus (.cls notGt), .lit true "rel=".data,
        .cls quoteCh, .lit true "canonical".data, .cls quoteCh,
        rplus (.cls notGt), .lit true "href=".data, .cls quoteCh,
        .grp 1 (rplus (.cls notQuote)), .cls quoteCh,
        .star true (.cls notGt), .lit true ">".data]

/-- `/(noindex|nofollow)/i`. -/
def reForbids : RE := .alt (.lit true "noindex".data) (.lit true "nofollow".data)

/-- `<meta[^>]+property=['"]P['"]` (i). -/
def reOgProp (p : String) : RE :=
  rcat [.lit true "<meta".data, rplus (.cls notGt), .lit true "property=".data,
        .cls quoteCh, .lit true p.data, .cls quoteCh]

/-- `src=['"]http:\/\/` (gi). -/
def reSrcHttp : RE :=
  rcat [.lit true "src=".data, .cls quoteCh, .lit true "http://".data]

/-- `href=['"]http:\/\/` (gi). -/
def reHrefHttp : RE :=
  rcat [.lit true "href=".data, .cls quoteCh, .lit true "http://".data]

/-- `/<img\b[^>]*>/gi`. -/
def reImg : RE :=
  rcat [.lit true "<img".data, .wb, .star true (.cls notGt), .lit true ">".data]

/-- `/\balt=/` (case-sensitive). -/
def reAltAttr : RE := rcat [.wb, .lit false "alt=".data]

/-- `/\bloading=['"]lazy['"]/` (case-sensitive). -/
def reLazyAttr : RE :=
  rcat [.wb, .lit false "loading=".data, .cls quoteCh, .lit false "lazy".data,
        .cls quoteCh]

/-- `/\bsrc=['"]([^'"]+)['"]/` (case-sensitive). -/
def reSrcAttr : RE :=
  rcat [.wb, .lit false "src=".data, .cls quoteCh,
        .grp 1 (rplus (.cls notQuote)), .cls quoteCh]

/-- `/^IMG[_-]?\d+/i`. -/
def reCameraName : RE :=
  rcat [.lit true "IMG".data, .opt true (.cls (fun c => c = '_' || c = '-')),
        rplus (.cls isDigitChar)]

/-- `/^image\d+/i`. -/
def reGenericImage : RE :=
  rcat [.lit true "image".data, rplus (.cls isDigitChar)]

/-- `/<a\b[^>]*href=['"]([^'"]+)['"][^>]*>([\s\S]*?)<\/a>/gi`. -/
def reAnchor : RE :=
  rcat [.lit true "<a".data, .wb, .star true (.cls notGt),
        .lit true "href=".data, .cls quoteCh, .grp 1 (rplus (.cls notQuote)),
        .cls quoteCh, .star true (.cls notGt), .lit true ">".data,
        .grp 2 (.star false anyCh), .lit true "</a>".data]

/-- `/<[^>]*>/g` (anchor-text tag strip; star, so `<>` also matches). -/
def tagStripRe : RE :=
  rcat [.lit false "<".data, .star true (.cls notGt), .lit false ">".data]

/-- `<meta[^>]+(article:published_time|date|last-modified)[^>]+content=['"]([^'"]+)['"]` (i). -/
def rePubMeta : RE :=
  rcat [.lit true "<meta".data, rplus (.cls notGt),
        .grp 1 (.alt (.lit true "article:published_time".data)
          (.alt (.lit true "date".data) (.lit true "last-modified".data))),
        rplus (.cls notGt), .lit true "content=".data, .cls quoteCh,
        .grp 2 (rplus (.cls notQuote)), .cls quoteCh]

/-- `/<time[^>]+datetime=['"]([^'"]+)['"][^>]*>/i`. -/
def reTimeTag : RE :=
  rcat [.lit true "<time".data, rplus (.cls notGt), .lit true "datetime=".data,
        .cls quoteCh, .grp 1 (rplus (.cls notQuote)), .cls quoteCh,
        .star true (.cls notGt), .lit true ">".data]

/-- `/\s+/g`. -/
def wsPlusRe : RE := rplus (.cls wsCh)

/-- `/"@type"\s*:\s*"(Organization|LocalBusiness)"/i`. -/
def reOrgSchema : RE :=
  rcat [.lit true "\"@type\"".data, .star true (.cls wsCh), .lit true ":".data,
        .star true (.cls wsCh), .lit true "\"".data,
        .alt (.lit true "Organization".data) (.lit true "LocalBusiness".data),
        .lit true "\"".data]

/-- `/\btel:\s*/i`. -/
def reTelProto : RE :=
  rcat [.wb, .lit true "tel:".data, .star true (.cls wsCh)]

/-- `/\btelephone["']\s*:\s*["'][+0-9(][^"']+["']/i`. -/
def reTelephoneProp : RE :=
  rcat [.wb, .lit true "telephone".data, .cls quoteCh, .star true (.cls wsCh),
        .lit true ":".data, .star true (.cls wsCh), .cls quoteCh,
        .cls (fun c => c = '+' || isDigitChar c || c = '('),
        rplus (.cls notQuote), .cls quoteCh]

/-- `/"address"\s*:\s*\x7b[\s\S]*?"streetAddress"[\s\S]*?\x7d/i`. -/
def reAddress : RE :=
  rcat [.lit true "\"address\"".data, .star true (.cls wsCh),
        .lit true ":".data, .star true (.cls wsCh), .lit true "\x7b".data,
        .star false anyCh, .lit true "\"streetAddress\"".data,
        .star false anyCh, .lit true "\x7d".data]

/-- `/(sameAs|facebook\.com|twitter\.com|x\.com|instagram\.com|linkedin\.com|youtube\.com)/i`. -/
def reSocial : RE :=
  .alt (.lit true "sameAs".data)
    (.alt (.lit true "facebook.com".data)
      (.alt (.lit true "twitter.com".data)
        (.alt (.lit true "x.com".data)
          (.alt (.lit true "instagram.com".data)
            (.alt (.lit true "linkedin.com".data)
              (.lit true "youtube.com".data))))))

/-- `/<link[^>]+rel=['"](icon|shortcut icon)['"][^>]*>/i`. -/
def reFaviconLink : RE :=
  rcat [.lit true "<link".data, rplus (.cls notGt), .lit true "rel=".data,
        .cls quoteCh,
        .grp 1 (.alt (.lit true "icon".data) (.lit true "shortcut icon".data)),
        .cls quoteCh, .star true (.cls notGt), .lit true ">".data]

/-- `/\/favicon\.ico\b/i`. -/
def reFaviconFile : RE := rcat [.lit true "/favicon.ico".data, .wb]

/-- `/<link[^>]+rel=['"]manifest['"][^>]*>/i`. -/
def reManifest : RE :=
  rcat [.lit true "<link".data, rplus (.cls notGt), .lit true "rel=".data,
        .cls quoteCh, .lit true "manifest".data, .cls quoteCh,
        .star true (.cls notGt), .lit true ">".data]

/-- `/<meta[^>]+charset=/i`. -/
def reCharset : RE :=
  rcat [.lit true "<meta".data, rplus (.cls notGt), .lit true "charset=".data]

/-- `/<html[^>]+lang=("|')[a-z-]+/i`. -/
def reHtmlLang : RE :=
  rcat [.lit true "<html".data, rplus (.cls notGt), .lit true "lang=".data,
        .grp 1 (.cls quoteCh), rplus (.cls (fun c => alphaCI c || c = '-'))]

/-- The title check: length 15–60 pass, 8–70 warn, else fail. -/
def issueTitleTag (html : List Char) (url : String) : Issue :=
  let title := jsTrim (((reExec reTitle html).bind (fun m => capGet m.2 1)).getD [])
  let tl := title.length
  { id := "title_tag",
    status := if 15 ≤ tl ∧ tl ≤ 60 then .pass
      else if 8 ≤ tl ∧ tl ≤ 70 then .warn else .fail,
    details := [("length", .n tl), ("title", .s (String.mk title))],
    fix := "Craft unique, descriptive titles (≤60 chars).",
    page := url, category := "onpage_seo" }

/-- Meta description: 0 fail; <70 or >160 warn; else pass. -/
def issueMetaDescription (html : List Char) (url : String) : Issue :=
  let md := ((reExec (reMetaNamedContent "description") html).bind
    (fun m => capGet m.2 1)).getD []
  let mdl := (jsTrim md).length
  { id := "meta_description",
    status := if mdl = 0 then .fail
      else if mdl < 70 ∨ mdl > 160 then .warn else .pass,
    details := [("length", .n mdl)],
    fix := "Write ~150-char descriptions matching intent.",
    page := url, category := "onpage_seo" }

/-- Viewport meta presence. -/
def issueViewportMeta (html : List Char) (url : String) : Issue :=
  { id := "viewport_meta",
    status := if reTest reViewport html then .pass else .fail,
    fix := "Add responsive viewport meta tag.",
    page := url, category := "technical_seo" }

/-- The uppercased heading names of the page (`<h1>`…`<h6>` tags in order). -/
def hMatchesOf (html : List Char) : List (List Char) :=
  (reFindAll reHeading html).map (fun m => upperStr ((capGet m.2 1).getD []))

/-- `parseInt(h.slice(1))` on an `H1`…`H6` name. -/
def headingLevel (h : List Char) : Int :=
  match h with
  | _ :: d :: _ => (d.toNat : Int) - 48
  | _ => 0

/-- Adjacent heading levels never jump by more than one. -/
def hierOk : List Int → Bool
  | [] => true
  | [_] => true
  | a :: b :: t => decide (b - a ≤ 1) && hierOk (b :: t)

/-- H1 count: exactly one pass, zero fail, several warn. -/
def issueH1Tag (html : List Char) (url : String) : Issue :=
  let h1Count := ((hMatchesOf html).filter (fun h => h = "H1".data)).length
  { id := "h1_tag",
    status := if h1Count = 1 then .pass else if h1Count = 0 then .fail else .warn,
    details := [("h1Count", .n h1Count)],
    fix := "Use exactly one H1.",
    page := url, category := "onpage_seo" }

/-- Heading hierarchy check. -/
def issueHeadingHierarchy (html : List Char) (url : String) : Issue :=
  let hM := hMatchesOf html
  { id := "heading_hierarchy",
    status := if hierOk (hM.map headingLevel) then .pass else .warn,
    details := [("order", .l (hM.map String.mk))],
    fix := "Follow logical H2/H3 progression.",
    page := url, category := "onpage_seo" }

/-- Canonical link: absent warn; self-referencing (prefix of the page URL)
pass; otherwise warn. -/
def issueCanonicalTag (html : List Char) (url : String) : Issue :=
  let canonical := ((reExec reCanonical html).bind (fun m => capGet m.2 1)).getD []
  { id := "canonical_tag",
    status := if canonical = [] then .warn
      else if url.data.isPrefixOf canonical then .pass else .warn,
    details := [("canonical", .s (String.mk canonical))],
    fix := "Add self-referencing canonical.",
    page := url, category := "technical_seo" }

/-- Robots directives: noindex/nofollow in the meta tag or the
`x-robots-tag` header fail, else pass. -/
def issueMetaRobots (html : List Char) (headers : List (String × String))
    (url : String) : Issue :=
  let robotsMeta := ((reExec (reMetaNamedContent "robots") html).bind
    (fun m => capGet m.2 1)).getD []
  let robotsHeader := ((headersGet headers "x-robots-tag").getD "").data
  { id := "meta_robots",
    status := if reTest reForbids robotsMeta || reTest reForbids robotsHeader
      then .fail else .pass,
    details := [("meta", .s (String.mk robotsMeta)),
                ("header", .s (String.mk robotsHeader))],
    fix := "Remove accidental noindex/nofollow.",
    page := url, category := "technical_seo" }

/-- The required OpenGraph properties. -/
def ogRequired : List String := ["og:title", "og:description", "og:image"]

/-- OpenGraph: all present pass, all missing fail, otherwise warn. -/
def issueOpenGraph (html : List Char) (url : String) : Issue :=
  let missingOg := ogRequired.filter (fun p => !reTest (reOgProp p) html)
  { id := "open_graph",
    status := if missingOg.length ≠ 0 then
        (if missingOg.length = ogRequired.length then .fail else .warn)
      else .pass,
    details := [("missing", .l missingOg)],
    fix := "Complete OG tags.",
    page := url, category := "entity_trust" }

/-- Mixed content: `http://` asset references — 0 pass, <3 warn, else fail. -/
def issueMixedContent (html : List Char) (url : String) : Issue :=
  let httpAssets := reCount reSrcHttp html + reCount reHrefHttp html
  { id := "https_mixed_content",
    status := if httpAssets = 0 then .pass
      else if httpAssets < 3 then .warn else .fail,
    details := [("httpAssets", .n httpAssets)],
    fix := "Serve assets over HTTPS.",
    page := url, category := "technical_seo" }

/-- All `<img …>` tag texts of the page. -/
def imgTagsOf (html : List Char) : List (List Char) :=
  (reFindAll reImg html).map (fun m => m.1)

/-- Image alt coverage: missing-alt fraction ≤0.1 pass, ≤0.3 warn, else fail
(0 when there are no images). -/
def issueImageAlt (html : List Char) (url : String) : Issue :=
  let imgTags := imgTagsOf html
  let imgCount := imgTags.length
  let imgNoAlt := (imgTags.filter (fun t => !reTest reAltAttr t)).length
  let missingFrac : ℚ := if imgCount ≠ 0 then (imgNoAlt : ℚ) / imgCount else 0
  { id := "image_alt",
    status := if missingFrac ≤ 1/10 then .pass
      else if missingFrac ≤ 3/10 then .warn else .fail,
    details := [("missingRatio", .n missingFrac)],
    fix := "Add alt text to important images.",
    page := url, category := "onpage_seo" }

/-- Lazy loading: fraction ≥0.8 pass, ≥0.5 warn, else fail (0 when there are
no images). -/
def issueImageLazy (html : List Char) (url : String) : Issue :=
  let imgTags := imgTagsOf html
  let imgCount := imgTags.length
  let lazyCount := (imgTags.filter (fun t => reTest reLazyAttr t)).length
  let lazyFrac : ℚ := if imgCount ≠ 0 then (lazyCount : ℚ) / imgCount else 0
  { id := "image_lazy",
    status := if lazyFrac ≥ 4/5 then .pass
      else if lazyFrac ≥ 1/2 then .warn else .fail,
    details := [("lazyRatio", .n lazyFrac)],
    fix := "Add loading=\"lazy\" to non-critical images.",
    page := url, category := "onpage_seo" }

/-- The filename of an image tag's `src` (text after the last `/`). -/
def imgFilename (t : List Char) : List Char :=
  let src := ((reExec reSrcAttr t).bind (fun m => capGet m.2 1)).getD []
  (src.reverse.takeWhile (fun c => c ≠ '/')).reverse

/-- Descriptive-filename test: has a letter, not camera-style `IMG_1234`, not
generic `image1`. -/
def descriptiveName (t : List Char) : Bool :=
  let fn := imgFilename t
  reTest (.cls isAlphaChar) fn && !reTestStart reCameraName fn
    && !reTestStart reGenericImage fn

/-- Descriptive filenames: fraction ≥0.5 pass, ≥0.3 warn, else fail (1 when
there are no images). -/
def issueImageFilename (html : List Char) (url : String) : Issue :=
  let imgTags := imgTagsOf html
  let imgCount := imgTags.length
  let descriptive := (imgTags.filter descriptiveName).length
  let descFrac : ℚ := if imgCount ≠ 0 then (descriptive : ℚ) / imgCount else 1
  { id := "image_filename",
    status := if descFrac ≥ 1/2 then .pass
      else if descFrac ≥ 3/10 then .warn else .fail,
    details := [("descriptiveRatio", .n descFrac)],
    fix := "Use descriptive filenames (e.g., blue-widget.jpg).",
    page := url, category := "onpage_seo" }

/-- Whether a character list has a valid scheme prefix. -/
def hasSchemePfx (href : List Char) : Bool :=
  match href with
  | [] => false
  | c :: _ => isAlphaChar c && ((href.dropWhile schemeChar).head? = some ':')

/-- Models `new URL(href, base).origin`: `none` when the constructor throws;
`some none` for an opaque (`"null"`) origin of a non-special scheme;
`some (some o)` for a tuple origin. Protocol-relative `//` references take
the base scheme and other relative references stay on the base origin
(an approximation of WHATWG relative resolution sufficient for origin
comparison). -/
def resolvedOrigin (href : List Char) (base : URLRec) :
    Option (Option (List Char)) :=
  if hasSchemePfx href then
    let sch := lowerStr (href.takeWhile schemeChar)
    if sch = "http".data ∨ sch = "https".data then
      (parseURLc href).map (fun u2 => some (originChars u2))
    else some none
  else if href.take 2 = ['/', '/'] then
    (parseURLc (base.scheme ++ ':' :: href)).map (fun u2 => some (originChars u2))
  else some (some (originChars base))

/-- The page's anchors: href and tag-stripped, trimmed text. -/
def linksOf (html : List Char) : List (List Char × List Char) :=
  (reFindAll reAnchor html).map (fun m =>
    ((capGet m.2 1).getD [],
     jsTrim (reReplaceAll tagStripRe [] ((capGet m.2 2).getD []))))

/-- The same-origin anchors of the page. -/
def internalLinksOf (html : List Char) (u : URLRec) :
    List (List Char × List Char) :=
  (linksOf html).filter (fun l =>
    match resolvedOrigin l.1 u with
    | some (some o) => o = originChars u
    | _ => false)

/-- Internal links: ≥5 links with anchor diversity ≥0.4 pass; ≥3 links warn;
else fail. -/
def issueInternalLinks (html : List Char) (u : URLRec) (url : String) : Issue :=
  let internal := internalLinksOf html u
  let minLinks := internal.length
  let texts := (internal.map (fun l => lowerStr l.2)).filter (fun t => t ≠ [])
  let uniqueAnchors := (unique texts).length
  let anchorDiv : ℚ :=
    if texts.length ≠ 0 then (uniqueAnchors : ℚ) / texts.length else 1
  { id := "internal_links",
    status := if minLinks ≥ 5 ∧ anchorDiv ≥ 2/5 then .pass
      else if minLinks ≥ 3 then .warn else .fail,
    details := [("internalCount", .n minLinks), ("anchorDiversity", .n anchorDiv)],
    fix := "Add contextual internal links and diversify anchors.",
    page := url, category := "onpage_seo" }

/-- Publish/last-modified date signal: present pass, absent warn. -/
def issuePublishDate (html : List Char) (url : String) : Issue :=
  let dateMeta := ((reExec rePubMeta html).bind (fun m => capGet m.2 2)).getD []
  let timeTag := ((reExec reTimeTag html).bind (fun m => capGet m.2 1)).getD []
  { id := "publish_date",
    status := if dateMeta ≠ [] ∨ timeTag ≠ [] then .pass else .warn,
    details := [("dateMeta", .s (String.mk dateMeta)),
                ("timeTag", .s (String.mk timeTag))],
    fix := "Expose publish/updated dates on content pages.",
    page := url, category := "onpage_seo" }

/-- `html` minus script and style blocks. -/
def textNoTagsOf (html : List Char) : List Char :=
  reReplaceAll styleStripRe [] (reReplaceAll scriptStripRe [] html)

/-- Count the words of a space-separated text (`split(' ').filter(Boolean)`). -/
def countWordsAux : List Char → Bool → Nat
  | [], inw => if inw then 1 else 0
  | c :: t, inw =>
      if c = ' ' then (if inw then 1 else 0) + countWordsAux t false
      else countWordsAux t true

/-- The page's rough word count. -/
def wordsOf (html : List Char) : Nat :=
  countWordsAux
    (jsTrim (reReplaceAll wsPlusRe " ".data
      (reReplaceAll tagSpaceRe " ".data (textNoTagsOf html)))) false

/-- Word count: ≥300 pass, ≥200 warn, else fail. -/
def issueWordCount (html : List Char) (url : String) : Issue :=
  let words := wordsOf html
  { id := "word_count",
    status := if words ≥ 300 then .pass
      else if words ≥ 200 then .warn else .fail,
    details := [("words", .n words)],
    fix := "Increase content depth; cover user questions and subtopics.",
    page := url, category := "onpage_seo" }

/-- Organization/LocalBusiness JSON-LD type literal present. -/
def issueEntitySchemaOrg (html : List Char) (url : String) : Issue :=
  { id := "entity_schema_org",
    status := if reTest reOrgSchema html then .pass else .warn,
    fix := "Add Organization/LocalBusiness JSON-LD.",
    page := url, category := "entity_trust" }

/-- Phone or structured postal address present. -/
def issueEntityNap (html : List Char) (url : String) : Issue :=
  let hasTel := reTest reTelProto html || reTest reTelephoneProp html
  let hasAddress := reTest reAddress html
  { id := "entity_nap",
    status := if hasTel || hasAddress then .pass else .warn,
    details := [("hasTel", .b hasTel), ("hasAddress", .b hasAddress)],
    fix := "Expose business phone and postal address (JSON-LD or visible).",
    page := url, category := "entity_trust" }

/-- Social profile / sameAs reference present. -/
def issueEntitySocial (html : List Char) (url : String) : Issue :=
  { id := "entity_social_profiles",
    status := if reTest reSocial html then .pass else .warn,
    fix := "Add sameAs links to major social profiles.",
    page := url, category := "entity_trust" }

/-- Favicon link or conventional file reference present. -/
def issueHygieneFavicon (html : List Char) (url : String) : Issue :=
  { id := "hygiene_favicon",
    status := if reTest reFaviconLink html || reTest reFaviconFile html
      then .pass else .warn,
    fix := "Add <link rel=\"icon\"> or /favicon.ico.",
    page := url, category := "hygiene" }

/-- Web-app manifest link present. -/
def issueHygieneManifest (html : List Char) (url : String) : Issue :=
  { id := "hygiene_manifest",
    status := if reTest reManifest html then .pass else .warn,
    fix := "Add a web app manifest (optional).",
    page := url, category := "hygiene" }

/-- Charset meta present. -/
def issueHygieneCharset (html : List Char) (url : String) : Issue :=
  { id := "hygiene_charset",
    status := if reTest reCharset html then .pass else .warn,
    fix := "Add <meta charset=\"utf-8\"> early in <head>.",
    page := url, category := "hygiene" }

/-- Root `lang` attribute present. -/
def issueHygieneHtmlLang (html : List Char) (url : String) : Issue :=
  { id := "hygiene_html_lang",
    status := if reTest reHtmlLang html then .pass else .warn,
    fix := "Set <html lang=\"en-GB\"> (or appropriate).",
    page := url, category := "hygiene" }

/-- Current calendar year literal appears in the markup. -/
def issueHygieneCopyright (html : List Char) (url : String) : Issue :=
  { id := "hygiene_copyright_year",
    status := if reTest (.lit false (natChars THIS_YEAR)) html then .pass
      else .warn,
    fix := "Update footer copyright to 2026.",
    page := url, category := "hygiene" }

/-- `evaluateHome` from the source: the fixed sequence of 23 issues; an
unparsable `url` makes `new URL(url)` (reached inside the internal-links
check, outside any try/catch) throw, discarding the issues pushed before
it. -/
def evaluateHome (html : String) (headers : List (String × String))
    (url : String) : Except String (List Issue) :=
  match parseURL url with
  | none => .error "Invalid URL"
  | some u =>
      .ok [issueTitleTag html.data url,
           issueMetaDescription html.data url,
           issueViewportMeta html.data url,
           issueH1Tag html.data url,
           issueHeadingHierarchy html.data url,
           issueCanonicalTag html.data url,
           issueMetaRobots html.data headers url,
           issueOpenGraph html.data url,
           issueMixedContent html.data url,
           issueImageAlt html.data url,
           issueImageLazy html.data url,
           issueImageFilename html.data url,
           issueInternalLinks html.data u url,
           issuePublishDate html.data url,
           issueWordCount html.data url,
           issueEntitySchemaOrg html.data url,
           issueEntityNap html.data url,
           issueEntitySocial html.data url,
           issueHygieneFavicon html.data url,
           issueHygieneManifest html.data url,
           issueHygieneCharset html.data url,
           issueHygieneHtmlLang html.data url,
           issueHygieneCopyright html.data url]

/-- The fixed catalogue of check ids, in emission order. -/
def catalogueIds : List String :=
  ["title_tag", "meta_description", "viewport_meta", "h1_tag",
   "heading_hierarchy", "canonical_tag", "meta_robots", "open_graph",
   "https_mixed_content", "image_alt", "image_lazy", "image_filename",
   "internal_links", "publish_date", "word_count", "entity_schema_org",
   "entity_nap", "entity_social_profiles", "hygiene_favicon",
   "hygiene_manifest", "hygiene_charset", "hygiene_html_lang",
   "hygiene_copyright_year"]

/-- C3 counterexample: with the unparsable URL `""` the evaluator throws
(`new URL(url)` at the internal-links check) and emits no issues at all, so
"for any URL" fails. -/
theorem C3_evaluateHome_cex :
    evaluateHome "some markup" [] "" = .error "Invalid URL" := rfl

/-- C3 amended: for every markup string and headers, and every URL the URL
parser accepts, the evaluator emits exactly one issue per catalogue id — the
id sequence is exactly the 23-element catalogue, which is duplicate-free. -/
theorem C3_one_issue_per_id (html : String) (headers : List (String × String))
    (url : String) (u : URLRec) (hu : parseURL url = some u) :
    (evaluateHome html headers url).map (fun l => l.map Issue.id)
      = .ok catalogueIds ∧ catalogueIds.Nodup := by
  constructor
  · unfold evaluateHome
    rw [hu]
    rfl
  · decide

/-- Witness for C3 on a concrete page. -/
theorem C3_one_issue_per_id_witness :
    (evaluateHome "<p>hello</p>" [] "https://e.com").map (fun l => l.map Issue.id)
      = .ok catalogueIds ∧ catalogueIds.Nodup :=
  C3_one_issue_per_id "<p>hello</p>" [] "https://e.com"
    { scheme := "https".data, host := "e.com".data, port := none,
      path := [], query := none, fragment := none } rfl

/-- C10: on a page whose markup contains no `<img>` tag, the three image
checks disagree on the empty default: `image_alt` passes (missing fraction
defaults to 0), `image_lazy` fails (lazy fraction defaults to 0, below the
0.5 threshold) and `image_filename` passes (descriptive fraction defaults
to 1). -/
theorem C10_image_empty_defaults (html : String)
    (headers : List (String × String)) (url : String) (u : URLRec)
    (hu : parseURL url = some u) (himg : imgTagsOf html.data = []) :
    (evaluateHome html headers url).map (fun l =>
        (l.map Issue.id,
         (l[9]?).map Issue.status,
         (l[10]?).map Issue.status,
         (l[11]?).map Issue.status))
      = .ok (catalogueIds, some .pass, some .fail, some .pass) := by
  have ha : (issueImageAlt html.data url).status = .pass := by
    simp only [issueImageAlt, himg]
    norm_num
  have hl : (issueImageLazy html.data url).status = .fail := by
    simp only [issueImageLazy, himg]
    norm_num
  have hf : (issueImageFilename html.data url).status = .pass := by
    simp only [issueImageFilename, himg]
    norm_num
  unfold evaluateHome
  rw [hu]
  show Except.ok _ = _
  refine congrArg Except.ok ?_
  refine Prod.ext rfl (Prod.ext ?_ (Prod.ext ?_ ?_))
  · show some (issueImageAlt html.data url).status = some Status.pass
    exact congrArg some ha
  · show some (issueImageLazy html.data url).status = some Status.fail
    exact congrArg some hl
  · show some (issueImageFilename html.data url).status = some Status.pass
    exact congrArg some hf

/-- Witness for C10 on a concrete page without images. -/
theorem C10_image_empty_defaults_witness :
    (evaluateHome "<p>hello</p>" [] "https://e.com").map (fun l =>
        (l.map Issue.id,
         (l[9]?).map Issue.status,
         (l[10]?).map Issue.status,
         (l[11]?).map Issue.status))
      = .ok (catalogueIds, some .pass, some .fail, some .pass) :=
  C10_image_empty_defaults "<p>hello</p>" [] "https://e.com"
    { scheme := "https".data, host := "e.com".data, port := none,
      path := [], query := none, fragment := none } rfl rfl

end Audit
